import Mathlib

/-!
Shallow embedding of the hyperdrive web-API gateway
(src/app/bg/web-apis/bg/hyperdrive.js) and verification of its
specification claims.

The gateway mediates filesystem-style operations on hyperdrives: it
resolves URLs to drives and checkouts, decides permissions (privileged
bypass, self-origin bypass, cached grants, interactive consent), enforces
quotas, validates paths, records audit entries and fans out queries.

Modelling conventions:
  - Pure JS helpers become Lean functions on `String`/`Nat`/`Int`.
  - Stateful operations become functions `World → Except Err α × World`
    (the monad `M` below).  The `World` carries the permission-grant
    store, the audit log, and a trace of observable events (drive
    lookups, permission queries and prompts, quota checks, path checks,
    filesystem primitive calls).
  - External collaborators (storage engine, DNS, consent UI, metadata
    store, query engine) are supplied through an `Env` of oracles, as
    the spec treats them as capability-providing services.
  - Parts of the repository that are outside src/ (lib/const, lib/urls,
    dbs/archives, dbs/audit-log, ui/permissions) are modelled from the
    spec; each such definition carries a doc comment saying so.
-/

namespace Beaker

/-! ## String helpers -/

/-- Membership of a pattern list inside a list (JS `String.includes`). -/
def listHasInfix (pat : List Char) : List Char → Bool
  | [] => decide (pat = [])
  | c :: rest => pat.isPrefixOf (c :: rest) || listHasInfix pat rest

/-- JS `s.includes(pat)` for strings. -/
def containsSub (s pat : String) : Bool :=
  listHasInfix pat.toList s.toList

/-- JS `s.startsWith(pre)`. -/
def strStartsWith (s pre : String) : Bool :=
  pre.toList.isPrefixOf s.toList

/-- JS `s.slice(-1) === c`: the last character test. -/
def lastCharIs (s : String) (c : Char) : Bool :=
  s.toList.getLast? = some c

/-- JS `s.toLowerCase()` (restricted to the ASCII range of
`Char.toLower`, which covers every witness input). -/
def strToLower (s : String) : String :=
  String.mk (s.toList.map Char.toLower)

/-- Node `path.basename`: strip trailing slashes, then keep the part after
the last slash. -/
def basename (p : String) : String :=
  let rcs := p.toList.reverse.dropWhile (fun c => c = '/')
  String.mk (rcs.takeWhile (fun c => c ≠ '/')).reverse

/-! ## The privileged-sender test

`isSenderBeaker` embeds the regex
`^(beaker:|https?:\/\/(.*\.)?hyperdrive\.network(:|\/))` from
hyperdrive.js line 23: the sender URL either has the beaker scheme, or is
an http(s) URL whose host part starts (after an optional dot-terminated,
newline-free prefix) with `hyperdrive.network` followed by `:` or `/`. -/

/-- Matching of the literal tail `hyperdrive.network(:|/)` at the head of
a character list. -/
def hdnAt (cs : List Char) : Bool :=
  "hyperdrive.network".toList.isPrefixOf cs &&
    (match cs.drop 18 with
     | ':' :: _ => true
     | '/' :: _ => true
     | _ => false)

/-- Search for a split point for the optional regex group `(.*\.)?`: the
prefix consists of non-newline characters and ends with a dot, after
which the literal tail must match. -/
def hdnScan : List Char → Bool
  | [] => false
  | '\n' :: _ => false
  | '.' :: rest => hdnAt rest || hdnScan rest
  | _ :: rest => hdnScan rest

/-- Embedding of `isSenderBeaker` (hyperdrive.js line 23). -/
def isSenderBeaker (url : String) : Bool :=
  strStartsWith url "beaker:" ||
  (strStartsWith url "http://" &&
    (hdnAt (url.toList.drop 7) || hdnScan (url.toList.drop 7))) ||
  (strStartsWith url "https://" &&
    (hdnAt (url.toList.drop 8) || hdnScan (url.toList.drop 8)))

/-! ## Percent decoding (the JS builtin `decodeURIComponent`)

The builtin decodes `%XX` escape sequences into bytes and interprets the
byte stream as strict UTF-8, throwing `URIError` on malformed escapes or
invalid UTF-8.  Since a literal character never encodes to a UTF-8
continuation byte, decoding the whole string at the byte level is
equivalent to decoding each maximal escape run separately. -/

/-- Value of one hexadecimal digit. -/
def hexVal (c : Char) : Option Nat :=
  if '0' ≤ c ∧ c ≤ '9' then some (c.toNat - '0'.toNat)
  else if 'a' ≤ c ∧ c ≤ 'f' then some (c.toNat - 'a'.toNat + 10)
  else if 'A' ≤ c ∧ c ≤ 'F' then some (c.toNat - 'A'.toNat + 10)
  else none

/-- UTF-8 encoding of one character. -/
def charUtf8 (c : Char) : List Nat :=
  let n := c.toNat
  if n < 0x80 then [n]
  else if n < 0x800 then [0xC0 + n / 64, 0x80 + n % 64]
  else if n < 0x10000 then
    [0xE0 + n / 4096, 0x80 + (n / 64) % 64, 0x80 + n % 64]
  else
    [0xF0 + n / 0x40000, 0x80 + (n / 4096) % 64, 0x80 + (n / 64) % 64,
     0x80 + n % 64]

/-- Conversion of a percent-encoded character list to a byte list: a
`%XX` escape yields the byte `XX` and fails without two hexadecimal
digits; any other character contributes its UTF-8 bytes. -/
def pctToBytes : List Char → Option (List Nat)
  | [] => some []
  | '%' :: h1 :: h2 :: rest => do
      let v1 ← hexVal h1
      let v2 ← hexVal h2
      let bs ← pctToBytes rest
      some ((v1 * 16 + v2) :: bs)
  | '%' :: _ => none
  | c :: rest => do
      let bs ← pctToBytes rest
      some (charUtf8 c ++ bs)

/-- Test for a UTF-8 continuation byte. -/
def contByte (b : Nat) : Bool := 0x80 ≤ b && b ≤ 0xBF

/-- Strict UTF-8 decoding of a byte list, rejecting overlong encodings,
surrogates and out-of-range code points, as the ECMAScript decoding
algorithm does. -/
def utf8Decode : List Nat → Option (List Char)
  | [] => some []
  | b :: bs =>
    if b < 0x80 then do
      let cs ← utf8Decode bs
      some (Char.ofNat b :: cs)
    else if 0xC2 ≤ b ∧ b ≤ 0xDF then
      match bs with
      | b2 :: bs2 =>
        if contByte b2 then do
          let cs ← utf8Decode bs2
          some (Char.ofNat ((b - 0xC0) * 64 + (b2 - 0x80)) :: cs)
        else none
      | _ => none
    else if 0xE0 ≤ b ∧ b ≤ 0xEF then
      match bs with
      | b2 :: b3 :: bs2 =>
        let lo2 := if b = 0xE0 then 0xA0 else 0x80
        let hi2 := if b = 0xED then 0x9F else 0xBF
        if (lo2 ≤ b2 && b2 ≤ hi2) && contByte b3 then do
          let cs ← utf8Decode bs2
          some (Char.ofNat ((b - 0xE0) * 4096 + (b2 - 0x80) * 64 +
            (b3 - 0x80)) :: cs)
        else none
      | _ => none
    else if 0xF0 ≤ b ∧ b ≤ 0xF4 then
      match bs with
      | b2 :: b3 :: b4 :: bs2 =>
        let lo2 := if b = 0xF0 then 0x90 else 0x80
        let hi2 := if b = 0xF4 then 0x8F else 0xBF
        if (lo2 ≤ b2 && b2 ≤ hi2) && contByte b3 && contByte b4 then do
          let cs ← utf8Decode bs2
          some (Char.ofNat ((b - 0xF0) * 0x40000 + (b2 - 0x80) * 4096 +
            (b3 - 0x80) * 64 + (b4 - 0x80)) :: cs)
        else none
      | _ => none
    else none

/-- Model of the JS builtin `decodeURIComponent`: `none` stands for a
thrown `URIError`. -/
def decodeURIComponent (s : String) : Option String := do
  let bs ← pctToBytes s.toList
  let cs ← utf8Decode bs
  some (String.mk cs)

/-! ## Path normalization (hyperdrive.js lines 771-777) -/

/-- Embedding of `normalizeFilepath`: percent-decode, then prepend `/`
unless the decoded string contains `://` or already starts with `/`.
JS `str.charAt(0)` of an empty string is the empty string, which differs
from `/`, so an empty input normalizes to `/`.  The `none` result stands
for the `URIError` thrown by `decodeURIComponent`. -/
def normalizeFilepath (s : String) : Option String :=
  match decodeURIComponent s with
  | none => none
  | some d =>
    if ¬ containsSub d "://" ∧ d.toList.head? ≠ some '/' then some ("/" ++ d)
    else some d

/-! ## URL parsing and constants

These helpers live in lib/urls, lib/const and dbs/archives, which are
not under src/, so they are modelled from the spec. -/

/-- Modelled from the spec: lib/const `DRIVE_MANIFEST_FILENAME`, the name
of the drive manifest file protected from direct writes. -/
def DRIVE_MANIFEST_FILENAME : String := "index.json"

/-- Modelled from the spec: lib/const `DAT_QUOTA_DEFAULT_BYTES_ALLOWED`,
the default byte allowance used when no explicit allowance is
configured. -/
def DAT_QUOTA_DEFAULT_BYTES_ALLOWED : Nat := 104857600

/-- Modelled from the spec: lib/const `DEFAULT_DRIVE_API_TIMEOUT`, the
named default timeout constant for drive API calls. -/
def DEFAULT_DRIVE_API_TIMEOUT : Nat := 15000

/-- Embedding of the helper `to` (hyperdrive.js lines 25-28): the
caller-supplied timeout when present, else the default constant. -/
def toTimeout (topt : Option Nat) : Nat :=
  topt.getD DEFAULT_DRIVE_API_TIMEOUT

/-- Modelled from the spec: lib/const `HYPERDRIVE_HASH_REGEX` recognizes
a raw drive key, a fixed-length (64 hexadecimal characters,
case-insensitive) public identifier. -/
def isDriveHash (s : String) : Bool :=
  s.length = 64 && s.toList.all (fun c =>
    ('0' ≤ c && c ≤ '9') || ('a' ≤ c && c ≤ 'f') || ('A' ≤ c && c ≤ 'F'))

/-- Modelled from the spec: the parsed form of a drive URL produced by
lib/urls `parseDriveUrl`: scheme, hostname (the host with its `+version`
suffix removed), optional version, path, and the scheme-and-host
origin. -/
structure ParsedUrl where
  protocol : String
  hostname : String
  version : Option String
  pathname : String
  origin : String
deriving DecidableEq, Repr

/-- Splitting of a list at the first occurrence of a pattern, returning
the parts before and after it. -/
def splitAtInfix (pat : List Char) : List Char → Option (List Char × List Char)
  | [] => if pat = [] then some ([], []) else none
  | c :: rest =>
    if pat.isPrefixOf (c :: rest) then some ([], (c :: rest).drop pat.length)
    else match splitAtInfix pat rest with
      | some (pre, post) => some (c :: pre, post)
      | none => none

/-- Modelled from the spec: lib/urls `parseDriveUrl` splits
`scheme://host+version/path` into its components; a URL without a scheme
separator does not parse. -/
def parseDriveUrl (url : String) : Option ParsedUrl := do
  let (schemeCs, rest) ← splitAtInfix "://".toList url.toList
  let hostCs := rest.takeWhile (fun c => c ≠ '/')
  let pathCs := rest.drop hostCs.length
  let baseCs := hostCs.takeWhile (fun c => c ≠ '+')
  let verCs := hostCs.drop (baseCs.length + 1)
  let scheme := String.mk schemeCs
  let hostname := String.mk baseCs
  some
    { protocol := scheme ++ ":"
      hostname := hostname
      version := if baseCs.length = hostCs.length then none
                 else some (String.mk verCs)
      pathname := String.mk pathCs
      origin := scheme ++ "://" ++ hostname }

/-- Modelled from the spec: dbs/archives `extractOrigin` (the archives
database is an external collaborator) reduces a URL to its
scheme-and-host origin; a string without a scheme separator is returned
unchanged. -/
def extractOrigin (url : String) : String :=
  match parseDriveUrl url with
  | some urlp => urlp.origin
  | none => url

/-- Modelled from the spec: lib/const `DRIVE_VALID_PATH_REGEX` accepts
exactly the nonempty strings over letters, digits, and the characters
`-._~!$&()*+,;=:@/` together with the space, ruling out control
characters, NUL, backslashes and other host-reserved syntax. -/
def validPathChar (c : Char) : Bool :=
  c.isAlphanum ||
    "-._~!$&()*+,;=:@/ ".toList.contains c

/-- Acceptance test of the valid-path pattern. -/
def validPathStr (p : String) : Bool :=
  ¬ p.toList.isEmpty && p.toList.all validPathChar

/-! ## Errors, events, state -/

/-- Error taxonomy of the gateway (beaker-error-constants), together
with the JS builtin errors the gateway can surface (`uriError` from
percent decoding) and pass-through collaborator failures (`engine`). -/
inductive Err
  | permissions
  | userDenied
  | quotaExceeded
  | archiveNotWritable
  | invalidURL
  | protectedFileNotWritable
  | invalidPath
  | uriError
  | engine (msg : String)
deriving DecidableEq, Repr

deriving instance DecidableEq for Except

/-- Test for a pass-through collaborator (storage engine) failure. -/
def Err.isEngine : Err → Bool
  | .engine _ => true
  | _ => false

/-- Observable events of a gateway run: timeout bookkeeping, drive and
name resolution, permission-store consultations and prompts, quota
checks, path checks, and calls of the underlying file primitives. -/
inductive Event
  | timerStart
  | checkin (label : String)
  | pause
  | resume
  | driveLookup (id : String) (version : Option String)
  | dnsResolve (host : String)
  | permQuery (perm : String)
  | permPrompt (perm : String)
  | quotaCheck (driveKey : String) (bytes : Nat)
  | validPathCheck (path : String)
  | protectedCheck (path : String)
  | fsMutate (op : String) (path : String)
  | fsRead (op : String) (path : String)
deriving DecidableEq, Repr

/-- Classification of an event as a permission, quota or path check, or
a mutation of drive contents. -/
def Event.isCheckOrMutation : Event → Bool
  | .permQuery _ => true
  | .permPrompt _ => true
  | .quotaCheck _ _ => true
  | .validPathCheck _ => true
  | .protectedCheck _ => true
  | .fsMutate _ _ => true
  | _ => false

/-- Test for a mutation of drive contents. -/
def Event.isMutation : Event → Bool
  | .fsMutate _ _ => true
  | _ => false

/-- Test for an interactive permission prompt. -/
def Event.isPrompt : Event → Bool
  | .permPrompt _ => true
  | _ => false

/-- Test for a path-legality check. -/
def Event.isValidPathCheck : Event → Bool
  | .validPathCheck _ => true
  | _ => false

/-- One audit entry: actor origin URL, action name, optional byte
size. -/
structure AuditEntry where
  actor : String
  action : String
  size : Option Nat
deriving DecidableEq, Repr

/-- A drive reference held by the gateway: its public key (as the
lowercase hexadecimal string produced by `key.toString(hex)`) and its
writability flag. -/
structure Drive where
  key : String
  writable : Bool
deriving DecidableEq, Repr

/-- Mutable state threaded through a gateway call: the permission-grant
store (newest first, keyed by sender URL and permission id), the audit
log, and the event trace. -/
structure World where
  grants : List ((String × String) × Bool)
  audit : List AuditEntry
  events : List Event
deriving DecidableEq, Repr

/-- Appending of one event to the trace. -/
def World.push (w : World) (e : Event) : World :=
  { w with events := w.events ++ [e] }

/-- One match record returned by the external query engine: path and the
numeric timestamps of its stat. -/
structure QRes where
  path : String
  mtime : Int
  ctime : Int
deriving DecidableEq, Repr

/-- Oracles for the external collaborators: the storage engine drive
registry (`getDrive`/`loadDrive`, deduplicated by identifier), DNS name
resolution, the archives metadata store (accounted drive size), drive
info (manifest title), the user response to consent prompts, the size
reader, the structured query engine, and the outcome of each file
primitive (`none` is success, `some msg` an engine error passed through
unmodified). -/
structure Env where
  drives : String → Option Drive
  dns : String → Option String
  metaSize : String → Nat
  title : String → String
  approve : String → Bool
  readSize : String → String → Nat
  queryFn : String → Option String → List QRes
  fsOutcome : String → String → Option String

/-! ## The gateway monad -/

/-- Computation of a gateway call: state passing over `World` with
short-circuiting errors; the world (audit log, trace) survives an
error. -/
def M (α : Type) : Type := World → Except Err α × World

/-- Sequencing in `M`. -/
def M.bind {α β : Type} (x : M α) (f : α → M β) : M β := fun w =>
  match x w with
  | (.ok a, w1) => f a w1
  | (.error e, w1) => (.error e, w1)

/-- Pure result in `M`. -/
def pureM {α : Type} (a : α) : M α := fun w => (.ok a, w)

/-- Thrown error in `M`. -/
def throwM {α : Type} (e : Err) : M α := fun w => (.error e, w)

/-- Event emission in `M`. -/
def emitM (e : Event) : M Unit := fun w => (.ok (), w.push e)

/-- Advisory progress marking (`checkin`). -/
def checkinM (label : String) : M Unit := emitM (.checkin label)

/-- Pausing of the deadline clock before user interaction. -/
def pauseM : M Unit := emitM .pause

/-- Resumption of the deadline clock. -/
def resumeM : M Unit := emitM .resume

/-- Modelled from the spec: lib/time `timer` bounds an operation by a
deadline; the embedding records that a deadline clock was started and
runs the body (real-time expiry is outside the embedding). -/
def timerM {α : Type} (_duration : Nat) (op : M α) : M α := fun w =>
  op (w.push .timerStart)

/-- Modelled from the spec: dbs/audit-log `record` appends exactly one
audit entry capturing the attempt and then runs the wrapped operation,
without altering its result or error. -/
def auditRecord {α : Type} (actor action : String) (size : Option Nat)
    (op : M α) : M α := fun w =>
  op { w with audit := w.audit ++ [⟨actor, action, size⟩] }

/-- Call of a mutating file primitive on a checkout; the recorded event
captures that the mutation was attempted, and the oracle decides the
engine outcome. -/
def fsOp (env : Env) (op path : String) : M Unit := fun w =>
  let w := w.push (.fsMutate op path)
  match env.fsOutcome op path with
  | none => (.ok (), w)
  | some msg => (.error (.engine msg), w)

/-- Call of the size-reading primitive (`pda.readSize`). -/
def readSizeOp (env : Env) (driveKey path : String) : M Nat := fun w =>
  (.ok (env.readSize driveKey path), w.push (.fsRead "readSize" path))

/-! ## Permission store and consent prompts

The permissions module (ui/permissions) and its durable store are
external collaborators; they are modelled from the spec: a grant is a
tuple (subject origin, resource id, boolean), cached after a user
decision and consulted before re-prompting; approval at a prompt becomes
a new cached grant. -/

/-- Lookup of the cached grant for a sender and permission id (newest
entry wins). -/
def grantLookup (grants : List ((String × String) × Bool))
    (senderUrl perm : String) : Option Bool :=
  (grants.find? (fun g => g.1 == (senderUrl, perm))).map (fun g => g.2)

/-- Modelled from the spec: `permissions.queryPermission` consults the
durable grant store without prompting. -/
def queryPermission (perm senderUrl : String) : M (Option Bool) := fun w =>
  (.ok (grantLookup w.grants senderUrl perm), w.push (.permQuery perm))

/-- Modelled from the spec: `permissions.requestPermission` issues an
interactive consent prompt; explicit approval becomes a new cached
grant, while rejection or dismissal yields `false` without a grant. -/
def requestPermission (env : Env) (perm senderUrl : String) : M Bool :=
  fun w =>
  let w := w.push (.permPrompt perm)
  if env.approve perm then
    (.ok true, { w with grants := ((senderUrl, perm), true) :: w.grants })
  else
    (.ok false, w)

/-! ## Drive resolution (hyperdrive.js lines 782-801) -/

/-- Embedding of `lookupDrive`: fetch or load the drive for the
identifier from the storage engine registry, then derive the checkout.
Per the spec resolver contract the checkout is historic exactly when a
version was given (drives.getDriveCheckout is an external collaborator).
The returned pair is the drive and the `isHistoric` flag. -/
def lookupDrive (env : Env) (driveKey : String) (version : Option String) :
    M (Drive × Bool) := fun w =>
  let w := w.push (.driveLookup driveKey version)
  match env.drives driveKey with
  | none => (.error (.engine "drive not found"), w)
  | some d => (.ok (d, version.isSome), w)

/-- Value part of `lookupUrlDriveKey` (hyperdrive.js lines 789-801): a
raw drive key is returned as is; a URL of another scheme yields no key
(JS `false`); otherwise the hostname is resolved through DNS, with
resolution failure also yielding no key. -/
def urlDriveKey (env : Env) (url : String) : Option String :=
  if isDriveHash url then some url
  else if ¬ strStartsWith url "hyper://" then none
  else match parseDriveUrl url with
    | some urlp => env.dns urlp.hostname
    | none => none

/-- World effect of `lookupUrlDriveKey`: a DNS resolution event is
recorded exactly when the hostname is actually resolved. -/
def lookupWorld (url : String) (w : World) : World :=
  if isDriveHash url ∨ ¬ strStartsWith url "hyper://" then w
  else match parseDriveUrl url with
    | some urlp => w.push (.dnsResolve urlp.hostname)
    | none => w

/-- Embedding of `lookupUrlDriveKey`: the value of `urlDriveKey`, with
the world effect of `lookupWorld`. -/
def lookupUrlDriveKey (env : Env) (url : String) : M (Option String) :=
  fun w => (.ok (urlDriveKey env url), lookupWorld url w)


/-! ## Assertion helpers (hyperdrive.js lines 638-739) -/

/-- Embedding of `assertUnprotectedFilePath` (lines 638-645): the
privileged sender may write any file; any other sender is denied when
the target is the drive manifest path. -/
def assertUnprotectedFilePath (filepath senderUrl : String) : M Unit :=
  fun w =>
  let w := w.push (.protectedCheck filepath)
  if isSenderBeaker senderUrl then (.ok (), w)
  else if filepath = "/" ++ DRIVE_MANIFEST_FILENAME then
    (.error .protectedFileNotWritable, w)
  else (.ok (), w)

/-- Embedding of `assertValidPath` (lines 735-739): fail with
`InvalidPath` when the path does not match the valid-path pattern. -/
def assertValidPath (fileOrFolderPath : String) : M Unit := fun w =>
  let w := w.push (.validPathCheck fileOrFolderPath)
  if validPathStr fileOrFolderPath then (.ok (), w)
  else (.error .invalidPath, w)

/-- Embedding of `assertValidFilePath` (lines 728-733): a file path may
not end with a slash; then the general path pattern applies. -/
def assertValidFilePath (filepath : String) : M Unit := fun w =>
  if lastCharIs filepath '/' then (.error .invalidPath, w)
  else assertValidPath filepath w

/-- Embedding of `assertWritePermission` (lines 667-691), deciding in
order: the privileged sender is allowed; a sender whose own URL resolves
to the key of the target drive is allowed; a true cached grant for
`modifyDrive:key` is allowed; otherwise the user is prompted, approval
allows (and caches a grant) and refusal throws `UserDenied`. -/
def assertWritePermission (env : Env) (drive : Drive) (senderUrl : String) :
    M Unit :=
  let newDriveKey := drive.key
  let _details := env.title newDriveKey
  let perm := "modifyDrive:" ++ newDriveKey
  if isSenderBeaker senderUrl then pureM ()
  else
    M.bind (lookupUrlDriveKey env senderUrl) (fun senderDatKey =>
    if senderDatKey = some newDriveKey then pureM ()
    else
      M.bind (queryPermission perm senderUrl) (fun allowed =>
      if allowed = some true then pureM ()
      else
        M.bind (requestPermission env perm senderUrl) (fun granted =>
        if granted then pureM () else throwM .userDenied)))

/-- Embedding of `assertQuotaPermission` (lines 709-726): a sender
origin with the beaker scheme is exempt; otherwise the drive metadata is
fetched fresh and the projected size `meta.size + byteLength` must not
exceed the (default) allowance. -/
def assertQuotaPermission (env : Env) (drive : Drive)
    (senderOrigin : String) (byteLength : Nat) : M Unit := fun w =>
  if strStartsWith senderOrigin "beaker:" then (.ok (), w)
  else
    let w := w.push (.quotaCheck drive.key byteLength)
    let metaSize := env.metaSize drive.key
    let bytesAllowed := DAT_QUOTA_DEFAULT_BYTES_ALLOWED
    let newSize := metaSize + byteLength
    if newSize > bytesAllowed then (.error .quotaExceeded, w)
    else (.ok (), w)

/-! ## Public operations

Each embedding follows its source line by line: URL parsing and path
normalization happen before the audit wrapper (as in the JS, where they
run before `auditLog.record` and can throw); the wrapped body runs
inside the timer, resolves the drive, rejects historic checkouts where
the source does, pauses the clock around the permission, quota and path
checks, and finally delegates to the file primitive.  `dataLen` stands
for `Buffer.byteLength(data, opts.encoding)`. -/

/-- Embedding of `loadDrive` (lines 125-131): reject a falsy URL,
otherwise load the drive through the registry and return `true`.  No
audit wrapper appears in the source. -/
def loadDriveOp (env : Env) (url : String) : M Bool := fun w =>
  if url = "" then (.error .invalidURL, w)
  else
    let w := w.push (.driveLookup url none)
    match env.drives url with
    | some _ => (.ok true, w)
    | none => (.error (.engine "drive not found"), w)

/-- Body of `writeFile` run inside the audit wrapper and the timer. -/
def writeFileBody (env : Env) (senderUrl : String) (urlp : ParsedUrl)
    (filepath : String) (dataLen : Nat) : M Unit :=
  M.bind (checkinM "looking up drive") (fun _ =>
  M.bind (lookupDrive env urlp.hostname urlp.version) (fun dh =>
  if dh.2 then throwM .archiveNotWritable else
  M.bind pauseM (fun _ =>
  let senderOrigin := extractOrigin senderUrl
  M.bind (assertWritePermission env dh.1 senderUrl) (fun _ =>
  M.bind (assertQuotaPermission env dh.1 senderOrigin dataLen) (fun _ =>
  M.bind (assertValidFilePath filepath) (fun _ =>
  M.bind (assertUnprotectedFilePath filepath senderUrl) (fun _ =>
  M.bind resumeM (fun _ =>
  M.bind (checkinM "writing file") (fun _ =>
  fsOp env "writeFile" filepath)))))))))

/-- Embedding of `writeFile` (lines 245-268). -/
def writeFileOp (env : Env) (senderUrl url : String) (dataLen : Nat)
    (topt : Option Nat) : M Unit :=
  match parseDriveUrl url with
  | none => throwM .invalidURL
  | some urlp =>
    match normalizeFilepath urlp.pathname with
    | none => throwM .uriError
    | some filepath =>
      auditRecord senderUrl "writeFile" (some dataLen)
        (timerM (toTimeout topt)
          (writeFileBody env senderUrl urlp filepath dataLen))

/-- Body of `unlink` run inside the audit wrapper and the timer. -/
def unlinkBody (env : Env) (senderUrl : String) (urlp : ParsedUrl)
    (filepath : String) : M Unit :=
  M.bind (checkinM "looking up drive") (fun _ =>
  M.bind (lookupDrive env urlp.hostname urlp.version) (fun dh =>
  if dh.2 then throwM .archiveNotWritable else
  M.bind pauseM (fun _ =>
  M.bind (assertWritePermission env dh.1 senderUrl) (fun _ =>
  M.bind (assertUnprotectedFilePath filepath senderUrl) (fun _ =>
  M.bind resumeM (fun _ =>
  M.bind (checkinM "deleting file") (fun _ =>
  fsOp env "unlink" filepath)))))))

/-- Embedding of `unlink` (lines 270-289). -/
def unlinkOp (env : Env) (senderUrl url : String) (topt : Option Nat) :
    M Unit :=
  match parseDriveUrl url with
  | none => throwM .invalidURL
  | some urlp =>
    match normalizeFilepath urlp.pathname with
    | none => throwM .uriError
    | some filepath =>
      auditRecord senderUrl "unlink" none
        (timerM (toTimeout topt) (unlinkBody env senderUrl urlp filepath))

/-- Body of `mkdir` run inside the audit wrapper and the timer. -/
def mkdirBody (env : Env) (senderUrl : String) (urlp : ParsedUrl)
    (filepath : String) : M Unit :=
  M.bind (checkinM "searching for drive") (fun _ =>
  M.bind (lookupDrive env urlp.hostname urlp.version) (fun dh =>
  if dh.2 then throwM .archiveNotWritable else
  M.bind pauseM (fun _ =>
  M.bind (assertWritePermission env dh.1 senderUrl) (fun _ =>
  M.bind (assertValidPath filepath) (fun _ =>
  M.bind (assertUnprotectedFilePath filepath senderUrl) (fun _ =>
  M.bind resumeM (fun _ =>
  M.bind (checkinM "making directory") (fun _ =>
  fsOp env "mkdir" filepath))))))))

/-- Embedding of `mkdir` (lines 409-429). -/
def mkdirOp (env : Env) (senderUrl url : String) (topt : Option Nat) :
    M Unit :=
  match parseDriveUrl url with
  | none => throwM .invalidURL
  | some urlp =>
    match normalizeFilepath urlp.pathname with
    | none => throwM .uriError
    | some filepath =>
      auditRecord senderUrl "mkdir" none
        (timerM (toTimeout topt) (mkdirBody env senderUrl urlp filepath))

/-- Body of `symlink` run inside the audit wrapper and the timer. -/
def symlinkBody (env : Env) (senderUrl : String) (urlp : ParsedUrl)
    (linkname : String) : M Unit :=
  M.bind (checkinM "searching for drive") (fun _ =>
  M.bind (lookupDrive env urlp.hostname urlp.version) (fun dh =>
  if dh.2 then throwM .archiveNotWritable else
  M.bind pauseM (fun _ =>
  M.bind (assertWritePermission env dh.1 senderUrl) (fun _ =>
  M.bind (assertValidPath linkname) (fun _ =>
  M.bind (assertUnprotectedFilePath linkname senderUrl) (fun _ =>
  M.bind resumeM (fun _ =>
  M.bind (checkinM "symlinking") (fun _ =>
  fsOp env "symlink" linkname))))))))

/-- Embedding of `symlink` (lines 452-473): the target and the link name
are both normalized before the audit wrapper; validity and protection
are checked on the link name. -/
def symlinkOp (env : Env) (senderUrl url linknameRaw : String)
    (topt : Option Nat) : M Unit :=
  match parseDriveUrl url with
  | none => throwM .invalidURL
  | some urlp =>
    match normalizeFilepath urlp.pathname with
    | none => throwM .uriError
    | some _target =>
      match normalizeFilepath linknameRaw with
      | none => throwM .uriError
      | some linkname =>
        auditRecord senderUrl "symlink" none
          (timerM (toTimeout topt) (symlinkBody env senderUrl urlp linkname))

/-- Body of `mount` run inside the audit wrapper and the timer. -/
def mountBody (env : Env) (senderUrl : String) (urlp : ParsedUrl)
    (filepath : String) : M Unit :=
  M.bind (checkinM "searching for drive") (fun _ =>
  M.bind (lookupDrive env urlp.hostname urlp.version) (fun dh =>
  if dh.2 then throwM .archiveNotWritable else
  M.bind pauseM (fun _ =>
  M.bind (assertWritePermission env dh.1 senderUrl) (fun _ =>
  M.bind (assertValidPath filepath) (fun _ =>
  M.bind (assertUnprotectedFilePath filepath senderUrl) (fun _ =>
  M.bind resumeM (fun _ =>
  M.bind (checkinM "mounting drive") (fun _ =>
  fsOp env "mount" filepath))))))))

/-- Embedding of `mount` (lines 475-495). -/
def mountOp (env : Env) (senderUrl url : String) (topt : Option Nat) :
    M Unit :=
  match parseDriveUrl url with
  | none => throwM .invalidURL
  | some urlp =>
    match normalizeFilepath urlp.pathname with
    | none => throwM .uriError
    | some filepath =>
      auditRecord senderUrl "mount" none
        (timerM (toTimeout topt) (mountBody env senderUrl urlp filepath))

/-- Pathname extraction of the JS `new URL(s).pathname` rewrite applied
to source and destination paths that are full URLs. -/
def jsUrlPathname (s : String) : String :=
  match parseDriveUrl s with
  | some urlp => urlp.pathname
  | none => s

/-- Body of `copy` run inside the audit wrapper and the timer: the
destination is resolved (the destination path may itself be a URL), then
destination write permission, protection and quota are checked (no
path-legality check appears in the source) before the single mutating
primitive. -/
def copyBody (env : Env) (senderUrl : String) (urlp : ParsedUrl)
    (srcpath0 dstpath0 : String) (sourceSize : Nat) : M Unit :=
  M.bind (checkinM "searching for drive") (fun _ =>
  M.bind (lookupDrive env
    (if containsSub dstpath0 "://" then dstpath0 else urlp.origin)
    none) (fun dst =>
  let _srcpath := if containsSub srcpath0 "://" then
    jsUrlPathname srcpath0 else srcpath0
  let dstpath := if containsSub dstpath0 "://" then
    jsUrlPathname dstpath0 else dstpath0
  M.bind pauseM (fun _ =>
  let senderOrigin := extractOrigin senderUrl
  M.bind (assertWritePermission env dst.1 senderUrl) (fun _ =>
  M.bind (assertUnprotectedFilePath dstpath senderUrl) (fun _ =>
  M.bind (assertQuotaPermission env dst.1 senderOrigin sourceSize) (fun _ =>
  M.bind resumeM (fun _ =>
  M.bind (checkinM "copying") (fun _ =>
  fsOp env "copy" dstpath))))))))

/-- Embedding of `copy` (lines 291-318): the source endpoint is resolved
and its size read before the audit wrapper. -/
def copyOp (env : Env) (senderUrl url dstpathRaw : String)
    (topt : Option Nat) : M Unit :=
  match parseDriveUrl url with
  | none => throwM .invalidURL
  | some urlp =>
    match normalizeFilepath urlp.pathname with
    | none => throwM .uriError
    | some srcpath0 =>
      match normalizeFilepath dstpathRaw with
      | none => throwM .uriError
      | some dstpath0 =>
        M.bind (lookupDrive env urlp.hostname urlp.version) (fun src =>
        M.bind (readSizeOp env src.1.key srcpath0) (fun sourceSize =>
        auditRecord senderUrl "copy" (some sourceSize)
          (timerM (toTimeout topt)
            (copyBody env senderUrl urlp srcpath0 dstpath0 sourceSize))))

/-- Body of `rename` run inside the audit wrapper and the timer: both
endpoints are resolved, then destination write permission, destination
path legality, and protection of both paths are checked before the
single mutating primitive. -/
def renameBody (env : Env) (senderUrl : String) (urlp : ParsedUrl)
    (srcpath0 dstpath0 : String) : M Unit :=
  M.bind (checkinM "searching for drive") (fun _ =>
  M.bind (lookupDrive env urlp.hostname urlp.version) (fun _src =>
  M.bind (lookupDrive env
    (if containsSub dstpath0 "://" then dstpath0 else urlp.origin)
    none) (fun dst =>
  let srcpath := if containsSub srcpath0 "://" then
    jsUrlPathname srcpath0 else srcpath0
  let dstpath := if containsSub dstpath0 "://" then
    jsUrlPathname dstpath0 else dstpath0
  M.bind pauseM (fun _ =>
  M.bind (assertWritePermission env dst.1 senderUrl) (fun _ =>
  M.bind (assertValidPath dstpath) (fun _ =>
  M.bind (assertUnprotectedFilePath srcpath senderUrl) (fun _ =>
  M.bind (assertUnprotectedFilePath dstpath senderUrl) (fun _ =>
  M.bind resumeM (fun _ =>
  M.bind (checkinM "renaming file") (fun _ =>
  fsOp env "rename" dstpath))))))))))

/-- Embedding of `rename` (lines 320-346). -/
def renameOp (env : Env) (senderUrl url dstpathRaw : String)
    (topt : Option Nat) : M Unit :=
  match parseDriveUrl url with
  | none => throwM .invalidURL
  | some urlp =>
    match normalizeFilepath urlp.pathname with
    | none => throwM .uriError
    | some srcpath0 =>
      match normalizeFilepath dstpathRaw with
      | none => throwM .uriError
      | some dstpath0 =>
        auditRecord senderUrl "rename" none
          (timerM (toTimeout topt)
            (renameBody env senderUrl urlp srcpath0 dstpath0))

/-! ## Query fan-out and merge (hyperdrive.js lines 518-547) -/

/-- Value of the `drive` option of `query`: absent, a single scalar
(boxed into a one-element array by the source when truthy), or an
array. -/
inductive DriveOpt
  | absent
  | scalar (u : String)
  | arr (us : List String)
deriving DecidableEq, Repr

/-- JS falsiness of the `drive` option (`!opts.drive`): absent values
and the empty string are falsy; an array, even empty, is truthy. -/
def DriveOpt.falsy : DriveOpt → Bool
  | .absent => true
  | .scalar u => u = ""
  | .arr _ => false

/-- Normalization of the `drive` option into an array
(`if (!Array.isArray(opts.drive)) opts.drive = [opts.drive]`). -/
def DriveOpt.toList : DriveOpt → List String
  | .absent => []
  | .scalar u => [u]
  | .arr us => us

/-- Options of `query` as consumed by the gateway: the drive option, the
sort key, the direction flag, and pagination.  JS treats `offset` and
`limit` as falsy when `0` or absent, so they are carried as plain
numbers with `0` for absent. -/
structure QueryOpts where
  drive : DriveOpt
  sort : Option String
  reverse : Bool
  offset : Nat
  limit : Nat
  timeout : Option Nat
deriving DecidableEq, Repr

/-- Resolution of every entry of the drive list to a checkout,
identified by (hostname, version); the per-entry failure modes are an
unparseable URL and a failing drive load. -/
def resolveDrives (env : Env) : List String → M (List (String × Option String))
  | [] => pureM []
  | u :: us =>
    match parseDriveUrl u with
    | none => throwM .invalidURL
    | some urlp =>
      M.bind (lookupDrive env urlp.hostname urlp.version) (fun _dh =>
      M.bind (resolveDrives env us) (fun rest =>
      pureM ((urlp.hostname, urlp.version) :: rest)))

/-- Pure value of `resolveDrives` (the event trace aside): the engine
registry alone decides resolution. -/
def resolveDrivesPure (env : Env) : List String →
    Except Err (List (String × Option String))
  | [] => .ok []
  | u :: us =>
    match parseDriveUrl u with
    | none => .error .invalidURL
    | some urlp =>
      match env.drives urlp.hostname with
      | none => .error (.engine "drive not found")
      | some _ =>
        match resolveDrivesPure env us with
        | .ok rest => .ok ((urlp.hostname, urlp.version) :: rest)
        | .error e => .error e

/-- Sort key of a result under the `name` ordering: the lowercased final
segment of its path (`path.basename(r.path).toLowerCase()`). -/
def nameKey (r : QRes) : String := strToLower (basename r.path)

/-- Comparator actually used by the multi-drive re-sort, as a boolean
less-or-equal: `name` compares lowercased basenames (the embedding of
the locale-aware `localeCompare` builtin), `mtime` and `ctime` compare
the numeric timestamps; `reverse` flips the direction. -/
def sortLe (sortKey : String) (reverse : Bool) (a b : QRes) : Bool :=
  if sortKey = "name" then
    if reverse then decide (nameKey b ≤ nameKey a)
    else decide (nameKey a ≤ nameKey b)
  else if sortKey = "mtime" then
    if reverse then decide (b.mtime ≤ a.mtime) else decide (a.mtime ≤ b.mtime)
  else
    if reverse then decide (b.ctime ≤ a.ctime) else decide (a.ctime ≤ b.ctime)

/-- Re-sort of the flattened multi-drive results by the requested key
(none of the three keys leaves the order untouched), mirroring the
`results.sort(...)` calls; JS `Array.prototype.sort` is a stable sort of
a consistent comparator, embedded as a stable merge sort. -/
def resort (sort : Option String) (reverse : Bool) (rs : List QRes) :
    List QRes :=
  if sort = some "name" then rs.mergeSort (sortLe "name" reverse)
  else if sort = some "mtime" then rs.mergeSort (sortLe "mtime" reverse)
  else if sort = some "ctime" then rs.mergeSort (sortLe "ctime" reverse)
  else rs

/-- Pagination of the merged sequence, with the JS falsiness of `0`:
`slice(offset, offset + limit)` when both are nonzero, `slice(offset)`
when only the offset is, `slice(0, limit)` when only the limit is. -/
def pageSlice (offset limit : Nat) (rs : List QRes) : List QRes :=
  if offset ≠ 0 ∧ limit ≠ 0 then (rs.drop offset).take limit
  else if offset ≠ 0 then rs.drop offset
  else if limit ≠ 0 then rs.take limit
  else rs

/-- Embedding of `query` (lines 518-547): a falsy drive option returns
the empty array at once, before the audit wrapper and the timer;
otherwise every listed drive is resolved, the external query engine runs
once per checkout, the per-drive results are flattened, and only when
more than one drive was queried the union is re-sorted and re-paged. -/
def queryOp (env : Env) (senderUrl : String) (opts : QueryOpts) :
    M (List QRes) :=
  if opts.drive.falsy then pureM []
  else
    auditRecord senderUrl "query" none (timerM (toTimeout opts.timeout)
      (M.bind (checkinM "looking up drives") (fun _ =>
       M.bind (resolveDrives env opts.drive.toList) (fun cs =>
       M.bind (checkinM "running query") (fun _ =>
       let results := (cs.map (fun c => env.queryFn c.1 c.2)).flatten
       if cs.length > 1 then
         pureM (pageSlice opts.offset opts.limit
           (resort opts.sort opts.reverse results))
       else
         pureM results)))))

/-! ## Quota over a sequence of writes

The spec states the per-call check; for the sequence property the
accounted size grows by the accepted bytes between calls (the engine
updates `meta.size` after a committed write).  `quotaSeq` re-runs
`assertQuotaPermission` before each write against the fresh size and
returns the index of the first rejected write, if any. -/

/-- Environment carrying only an accounted size, for running the quota
check in isolation. -/
def envAtSize (sz : Nat) : Env :=
  { drives := fun _ => none
    dns := fun _ => none
    metaSize := fun _ => sz
    title := fun _ => ""
    approve := fun _ => false
    readSize := fun _ _ => 0
    queryFn := fun _ _ => []
    fsOutcome := fun _ _ => none }

/-- Empty world. -/
def w0 : World := ⟨[], [], []⟩

/-- Index of the first write of the sequence rejected by the quota
check, when the accounted size starts at `sz` and each accepted write
adds its bytes to the accounted size. -/
def quotaSeq (drive : Drive) (origin : String) :
    Nat → List Nat → Option Nat
  | _, [] => none
  | sz, b :: bs =>
    match (assertQuotaPermission (envAtSize sz) drive origin b w0).1 with
    | .error _ => some 0
    | .ok _ => (quotaSeq drive origin (sz + b) bs).map (fun i => i + 1)

/-! ## Helper lemmas: preservation of audit log and mutation trace -/

/-- Count of mutation events in a trace. -/
def mutCount (es : List Event) : Nat := (es.filter Event.isMutation).length

/-- Count of interactive prompts in a trace. -/
def promptCount (es : List Event) : Nat := (es.filter Event.isPrompt).length

/-- Property of a computation that never touches the audit log. -/
def AuditFree {α : Type} (x : M α) : Prop :=
  ∀ w, ((x w).2).audit = w.audit

/-- Property of a computation that never records a mutation event. -/
def MutFree {α : Type} (x : M α) : Prop :=
  ∀ w, ((x w).2).events.filter Event.isMutation =
    w.events.filter Event.isMutation

/-- Property of a computation that records no mutation event on any run
that fails with a gateway (non-engine) error. -/
def NoMutOnGatewayError {α : Type} (x : M α) : Prop :=
  ∀ w e, (x w).1 = .error e → e.isEngine = false →
    ((x w).2).events.filter Event.isMutation =
      w.events.filter Event.isMutation

theorem World.push_audit (w : World) (e : Event) : (w.push e).audit = w.audit := rfl

theorem World.push_filter_of_not (w : World) (e : Event) (p : Event → Bool)
    (he : p e = false) :
    (w.push e).events.filter p = w.events.filter p := by
  simp [World.push, List.filter_append, he]

theorem MutFree.noMut {α : Type} {x : M α} (h : MutFree x) :
    NoMutOnGatewayError x := by
  intro w e _ _
  exact h w

theorem mutFree_bind {α β : Type} {x : M α} {f : α → M β}
    (hx : MutFree x) (hf : ∀ a, MutFree (f a)) : MutFree (M.bind x f) := by
  intro w
  unfold M.bind
  cases hxy : x w with
  | mk r w1 =>
    cases r with
    | ok a =>
      have h1 : w1.events.filter Event.isMutation =
          w.events.filter Event.isMutation := by
        have := hx w
        rw [hxy] at this
        exact this
      simpa [h1] using (hf a w1)
    | error e =>
      have := hx w
      rw [hxy] at this
      simpa using this

theorem noMut_bind {α β : Type} {x : M α} {f : α → M β}
    (hx : MutFree x) (hf : ∀ a, NoMutOnGatewayError (f a)) :
    NoMutOnGatewayError (M.bind x f) := by
  intro w e hb he
  unfold M.bind at hb ⊢
  cases hxy : x w with
  | mk r w1 =>
    have h1 : w1.events.filter Event.isMutation =
        w.events.filter Event.isMutation := by
      have := hx w
      rw [hxy] at this
      exact this
    cases r with
    | ok a =>
      simp only [hxy] at hb ⊢
      have := hf a w1 e hb he
      simpa [h1] using this
    | error e2 =>
      simp only [hxy] at hb ⊢
      simpa using h1

theorem auditFree_bind {α β : Type} {x : M α} {f : α → M β}
    (hx : AuditFree x) (hf : ∀ a, AuditFree (f a)) : AuditFree (M.bind x f) := by
  intro w
  unfold M.bind
  cases hxy : x w with
  | mk r w1 =>
    cases r with
    | ok a =>
      have h1 : w1.audit = w.audit := by
        have := hx w
        rw [hxy] at this
        exact this
      simpa [h1] using (hf a w1)
    | error e =>
      have := hx w
      rw [hxy] at this
      simpa using this

theorem emitM_auditFree (e : Event) : AuditFree (emitM e) := by
  intro w
  simp [emitM, World.push]

theorem emitM_mutFree (e : Event) (he : e.isMutation = false) :
    MutFree (emitM e) := by
  intro w
  simp [emitM, World.push, List.filter_append, he]

theorem pureM_auditFree {α : Type} (a : α) : AuditFree (pureM a) := by
  intro w
  simp [pureM]

theorem pureM_mutFree {α : Type} (a : α) : MutFree (pureM a) := by
  intro w
  simp [pureM]

theorem throwM_auditFree {α : Type} (e : Err) : AuditFree (throwM e : M α) := by
  intro w
  simp [throwM]

theorem throwM_mutFree {α : Type} (e : Err) : MutFree (throwM e : M α) := by
  intro w
  simp [throwM]

theorem lookupDrive_auditFree (env : Env) (k : String) (v : Option String) :
    AuditFree (lookupDrive env k v) := by
  intro w
  unfold lookupDrive
  split <;> simp [World.push]

theorem lookupDrive_mutFree (env : Env) (k : String) (v : Option String) :
    MutFree (lookupDrive env k v) := by
  intro w
  unfold lookupDrive
  split <;>
    simp [World.push, List.filter_append, Event.isMutation]

theorem readSizeOp_auditFree (env : Env) (k p : String) :
    AuditFree (readSizeOp env k p) := by
  intro w
  simp [readSizeOp, World.push]

theorem readSizeOp_mutFree (env : Env) (k p : String) :
    MutFree (readSizeOp env k p) := by
  intro w
  simp [readSizeOp, World.push, List.filter_append, Event.isMutation]

theorem lookupWorld_grants (url : String) (w : World) :
    (lookupWorld url w).grants = w.grants := by
  unfold lookupWorld
  repeat' split
  all_goals simp [World.push]

theorem lookupWorld_audit (url : String) (w : World) :
    (lookupWorld url w).audit = w.audit := by
  unfold lookupWorld
  repeat' split
  all_goals simp [World.push]

theorem lookupWorld_promptCount (url : String) (w : World) :
    promptCount (lookupWorld url w).events = promptCount w.events := by
  unfold lookupWorld
  repeat' split
  all_goals simp [World.push, promptCount, List.filter_append, Event.isPrompt]

theorem lookupWorld_mutFilter (url : String) (w : World) :
    (lookupWorld url w).events.filter Event.isMutation =
      w.events.filter Event.isMutation := by
  unfold lookupWorld
  repeat' split
  all_goals simp [World.push, List.filter_append, Event.isMutation]

theorem lookupUrlDriveKey_auditFree (env : Env) (u : String) :
    AuditFree (lookupUrlDriveKey env u) := by
  intro w
  exact lookupWorld_audit u w

theorem lookupUrlDriveKey_mutFree (env : Env) (u : String) :
    MutFree (lookupUrlDriveKey env u) := by
  intro w
  exact lookupWorld_mutFilter u w

theorem queryPermission_auditFree (perm u : String) :
    AuditFree (queryPermission perm u) := by
  intro w
  simp [queryPermission, World.push]

theorem queryPermission_mutFree (perm u : String) :
    MutFree (queryPermission perm u) := by
  intro w
  simp [queryPermission, World.push, List.filter_append, Event.isMutation]

theorem requestPermission_auditFree (env : Env) (perm u : String) :
    AuditFree (requestPermission env perm u) := by
  intro w
  unfold requestPermission
  split <;> simp [World.push]

theorem requestPermission_mutFree (env : Env) (perm u : String) :
    MutFree (requestPermission env perm u) := by
  intro w
  unfold requestPermission
  split <;> simp [World.push, List.filter_append, Event.isMutation]

theorem assertWritePermission_auditFree (env : Env) (d : Drive) (u : String) :
    AuditFree (assertWritePermission env d u) := by
  unfold assertWritePermission
  split
  · exact pureM_auditFree ()
  · refine auditFree_bind (lookupUrlDriveKey_auditFree env u) (fun a => ?_)
    split
    · exact pureM_auditFree ()
    · refine auditFree_bind (queryPermission_auditFree _ u) (fun b => ?_)
      split
      · exact pureM_auditFree ()
      · refine auditFree_bind (requestPermission_auditFree env _ u) (fun c => ?_)
        split
        · exact pureM_auditFree ()
        · exact throwM_auditFree _

theorem assertWritePermission_mutFree (env : Env) (d : Drive) (u : String) :
    MutFree (assertWritePermission env d u) := by
  unfold assertWritePermission
  split
  · exact pureM_mutFree ()
  · refine mutFree_bind (lookupUrlDriveKey_mutFree env u) (fun a => ?_)
    split
    · exact pureM_mutFree ()
    · refine mutFree_bind (queryPermission_mutFree _ u) (fun b => ?_)
      split
      · exact pureM_mutFree ()
      · refine mutFree_bind (requestPermission_mutFree env _ u) (fun c => ?_)
        split
        · exact pureM_mutFree ()
        · exact throwM_mutFree _

theorem assertQuotaPermission_auditFree (env : Env) (d : Drive)
    (o : String) (b : Nat) : AuditFree (assertQuotaPermission env d o b) := by
  intro w
  unfold assertQuotaPermission
  by_cases h : strStartsWith o "beaker:" = true
  · simp [h]
  · simp only [h]
    by_cases h2 : env.metaSize d.key + b > DAT_QUOTA_DEFAULT_BYTES_ALLOWED
    · simp [h2, World.push]
    · simp [h2, World.push]

theorem assertQuotaPermission_mutFree (env : Env) (d : Drive)
    (o : String) (b : Nat) : MutFree (assertQuotaPermission env d o b) := by
  intro w
  unfold assertQuotaPermission
  by_cases h : strStartsWith o "beaker:" = true
  · simp [h]
  · simp only [h]
    by_cases h2 : env.metaSize d.key + b > DAT_QUOTA_DEFAULT_BYTES_ALLOWED
    · simp [h2, World.push, List.filter_append, Event.isMutation]
    · simp [h2, World.push, List.filter_append, Event.isMutation]

theorem assertValidPath_auditFree (p : String) :
    AuditFree (assertValidPath p) := by
  intro w
  unfold assertValidPath
  split <;> simp [World.push]

theorem assertValidPath_mutFree (p : String) :
    MutFree (assertValidPath p) := by
  intro w
  unfold assertValidPath
  split <;> simp [World.push, List.filter_append, Event.isMutation]

theorem assertValidFilePath_auditFree (p : String) :
    AuditFree (assertValidFilePath p) := by
  intro w
  unfold assertValidFilePath
  split
  · simp
  · exact assertValidPath_auditFree p w

theorem assertValidFilePath_mutFree (p : String) :
    MutFree (assertValidFilePath p) := by
  intro w
  unfold assertValidFilePath
  split
  · simp
  · exact assertValidPath_mutFree p w

theorem assertUnprotectedFilePath_auditFree (p u : String) :
    AuditFree (assertUnprotectedFilePath p u) := by
  intro w
  unfold assertUnprotectedFilePath
  repeat' split
  all_goals simp_all [World.push]

theorem assertUnprotectedFilePath_mutFree (p u : String) :
    MutFree (assertUnprotectedFilePath p u) := by
  intro w
  unfold assertUnprotectedFilePath
  repeat' split
  all_goals simp_all [World.push, List.filter_append, Event.isMutation]

theorem fsOp_noMut (env : Env) (o p : String) :
    NoMutOnGatewayError (fsOp env o p) := by
  intro w e hb he
  unfold fsOp at hb
  revert hb
  split
  · intro hb
    simp at hb
  · intro hb
    simp at hb
    subst hb
    simp [Err.isEngine] at he

theorem timerM_noMut {α : Type} (t : Nat) (op : M α)
    (h : NoMutOnGatewayError op) : NoMutOnGatewayError (timerM t op) := by
  intro w e hb he
  unfold timerM at hb ⊢
  have := h (w.push .timerStart) e hb he
  rw [this]
  exact World.push_filter_of_not w .timerStart Event.isMutation rfl

theorem auditRecord_noMut {α : Type} (a n : String) (sz : Option Nat)
    (op : M α) (h : NoMutOnGatewayError op) :
    NoMutOnGatewayError (auditRecord a n sz op) := by
  intro w e hb he
  unfold auditRecord at hb ⊢
  exact h _ e hb he

theorem timerM_audit {α : Type} (t : Nat) (op : M α)
    (h : AuditFree op) : AuditFree (timerM t op) := by
  intro w
  unfold timerM
  have := h (w.push .timerStart)
  rw [this]
  rfl

theorem fsOp_auditFree (env : Env) (o p : String) : AuditFree (fsOp env o p) := by
  intro w
  unfold fsOp
  split <;> simp [World.push]

theorem writeFileBody_auditFree (env : Env) (u : String) (urlp : ParsedUrl)
    (fp : String) (n : Nat) : AuditFree (writeFileBody env u urlp fp n) := by
  unfold writeFileBody
  refine auditFree_bind (emitM_auditFree _) (fun _ => ?_)
  refine auditFree_bind (lookupDrive_auditFree env _ _) (fun dh => ?_)
  split
  · exact throwM_auditFree _
  · refine auditFree_bind (emitM_auditFree _) (fun _ => ?_)
    refine auditFree_bind (assertWritePermission_auditFree env _ u) (fun _ => ?_)
    refine auditFree_bind (assertQuotaPermission_auditFree env _ _ n) (fun _ => ?_)
    refine auditFree_bind (assertValidFilePath_auditFree fp) (fun _ => ?_)
    refine auditFree_bind (assertUnprotectedFilePath_auditFree fp u) (fun _ => ?_)
    refine auditFree_bind (emitM_auditFree _) (fun _ => ?_)
    refine auditFree_bind (emitM_auditFree _) (fun _ => ?_)
    exact fsOp_auditFree env _ fp

theorem writeFileBody_noMut (env : Env) (u : String) (urlp : ParsedUrl)
    (fp : String) (n : Nat) :
    NoMutOnGatewayError (writeFileBody env u urlp fp n) := by
  unfold writeFileBody
  refine noMut_bind (emitM_mutFree _ rfl) (fun _ => ?_)
  refine noMut_bind (lookupDrive_mutFree env _ _) (fun dh => ?_)
  split
  · exact MutFree.noMut (throwM_mutFree _)
  · refine noMut_bind (emitM_mutFree _ rfl) (fun _ => ?_)
    refine noMut_bind (assertWritePermission_mutFree env _ u) (fun _ => ?_)
    refine noMut_bind (assertQuotaPermission_mutFree env _ _ n) (fun _ => ?_)
    refine noMut_bind (assertValidFilePath_mutFree fp) (fun _ => ?_)
    refine noMut_bind (assertUnprotectedFilePath_mutFree fp u) (fun _ => ?_)
    refine noMut_bind (emitM_mutFree _ rfl) (fun _ => ?_)
    refine noMut_bind (emitM_mutFree _ rfl) (fun _ => ?_)
    exact fsOp_noMut env _ fp

theorem copyBody_noMut (env : Env) (u : String) (urlp : ParsedUrl)
    (sp dp : String) (n : Nat) :
    NoMutOnGatewayError (copyBody env u urlp sp dp n) := by
  unfold copyBody
  refine noMut_bind (emitM_mutFree _ rfl) (fun _ => ?_)
  refine noMut_bind (lookupDrive_mutFree env _ _) (fun dst => ?_)
  refine noMut_bind (emitM_mutFree _ rfl) (fun _ => ?_)
  refine noMut_bind (assertWritePermission_mutFree env _ u) (fun _ => ?_)
  refine noMut_bind (assertUnprotectedFilePath_mutFree _ u) (fun _ => ?_)
  refine noMut_bind (assertQuotaPermission_mutFree env _ _ n) (fun _ => ?_)
  refine noMut_bind (emitM_mutFree _ rfl) (fun _ => ?_)
  refine noMut_bind (emitM_mutFree _ rfl) (fun _ => ?_)
  exact fsOp_noMut env _ _

theorem renameBody_noMut (env : Env) (u : String) (urlp : ParsedUrl)
    (sp dp : String) :
    NoMutOnGatewayError (renameBody env u urlp sp dp) := by
  unfold renameBody
  refine noMut_bind (emitM_mutFree _ rfl) (fun _ => ?_)
  refine noMut_bind (lookupDrive_mutFree env _ _) (fun _src => ?_)
  refine noMut_bind (lookupDrive_mutFree env _ _) (fun dst => ?_)
  refine noMut_bind (emitM_mutFree _ rfl) (fun _ => ?_)
  refine noMut_bind (assertWritePermission_mutFree env _ u) (fun _ => ?_)
  refine noMut_bind (assertValidPath_mutFree _) (fun _ => ?_)
  refine noMut_bind (assertUnprotectedFilePath_mutFree _ u) (fun _ => ?_)
  refine noMut_bind (assertUnprotectedFilePath_mutFree _ u) (fun _ => ?_)
  refine noMut_bind (emitM_mutFree _ rfl) (fun _ => ?_)
  refine noMut_bind (emitM_mutFree _ rfl) (fun _ => ?_)
  exact fsOp_noMut env _ _

/-! ## Concrete fixtures shared by the witnesses and counterexamples -/

/-- Concrete 64-hexadecimal drive key. -/
def k64 : String := String.mk (List.replicate 64 'a')

/-- Concrete drive with the key `k64`. -/
def driveA : Drive := ⟨k64, true⟩

/-- Concrete target URL on `driveA`. -/
def urlA : String := "hyper://" ++ k64 ++ "/notes.txt"

/-- Concrete environment: `driveA` is registered both under its key and
under its origin URL; DNS resolves `self.example.com` to `k64`; the
accounted size is zero; every prompt is declined; all primitives
succeed. -/
def envFix : Env :=
  { drives := fun i =>
      if i = k64 ∨ i = "hyper://" ++ k64 then some driveA else none
    dns := fun h => if h = "self.example.com" then some k64 else none
    metaSize := fun _ => 0
    title := fun _ => "My Drive"
    approve := fun _ => false
    readSize := fun _ _ => 10
    queryFn := fun _ _ => []
    fsOutcome := fun _ _ => none }

/-- Variant of `envFix` whose accounted size already equals the whole
allowance. -/
def envAtCap : Env :=
  { envFix with metaSize := fun _ => DAT_QUOTA_DEFAULT_BYTES_ALLOWED }

/-- Variant of `envFix` whose user approves every prompt. -/
def envYes : Env := { envFix with approve := fun _ => true }

/-- World holding one cached true grant allowing
`https://app.example.com/` to modify `driveA`. -/
def wGrant : World :=
  ⟨[(("https://app.example.com/", "modifyDrive:" ++ k64), true)], [], []⟩

/-! ## Claim C10 -/

/-- C10: when `query` is invoked with an absent or falsy drive option it
returns the empty array immediately and leaves the world unchanged: no
drive is resolved, no per-drive query runs, no timeout is started, and
no audit entry is recorded. -/
theorem C10_query_falsy_drive_returns_empty (env : Env) (senderUrl : String)
    (opts : QueryOpts) (w : World) (h : opts.drive.falsy = true) :
    queryOp env senderUrl opts w = (.ok [], w) := by
  unfold queryOp
  simp [h, pureM]

/-- Witness for C10 at a concrete absent drive option. -/
theorem C10_query_falsy_drive_returns_empty_witness :
    queryOp envFix "https://app.example.com/"
      ⟨.absent, some "name", false, 1, 1, none⟩ w0 = (.ok [], w0) :=
  C10_query_falsy_drive_returns_empty envFix "https://app.example.com/"
    ⟨.absent, some "name", false, 1, 1, none⟩ w0 (by decide)

/-! ## Claim C9 -/

/-- C9 counterexample: `normalizeFilepath` is not total — the input `%`
makes `decodeURIComponent` throw `URIError` — and the input `%3a//`,
which does not contain `://`, decodes to `://` and is returned without a
leading slash, refuting both the no-failure clause and the
leading-slash clause of the claim. -/
theorem C9_cx_normalize_not_total :
    normalizeFilepath "%" = none ∧
    containsSub "%" "://" = false ∧
    normalizeFilepath "%3a//" = some "://" ∧
    containsSub "%3a//" "://" = false ∧
    ("://").toList.head? ≠ some '/' := by
  decide

/-- C9 amended: `normalizeFilepath` percent-decodes and fails exactly
when decoding fails (URIError); on success it prefixes `/` unless the
DECODED string contains `://` or already starts with `/`; every input
whose decoded form contains no `://` yields a result beginning with
`/`. -/
theorem C9_normalize_amended (s : String) :
    (∀ d, decodeURIComponent s = some d →
      normalizeFilepath s =
        some (if ¬ containsSub d "://" ∧ d.toList.head? ≠ some '/'
              then "/" ++ d else d)) ∧
    (∀ d, decodeURIComponent s = some d → containsSub d "://" = false →
      ∃ r, normalizeFilepath s = some r ∧ r.toList.head? = some '/') ∧
    (normalizeFilepath s = none ↔ decodeURIComponent s = none) := by
  refine ⟨?_, ?_, ?_⟩
  · intro d hd
    simp only [normalizeFilepath, hd]
    split <;> rfl
  · intro d hd hns
    by_cases hh : d.data.head? = some '/'
    · refine ⟨d, ?_, hh⟩
      simp [normalizeFilepath, hd, hns, hh, String.toList]
    · refine ⟨"/" ++ d, ?_, ?_⟩
      · simp [normalizeFilepath, hd, hns, hh, String.toList]
      · show ("/" ++ d).toList.head? = some '/'
        simp [String.toList]
  · constructor
    · intro h
      cases hd : decodeURIComponent s with
      | none => rfl
      | some d =>
        exfalso
        have h2 : normalizeFilepath s ≠ none := by
          simp only [normalizeFilepath, hd]
          split <;> simp
        exact h2 h
    · intro h
      simp [normalizeFilepath, h]

/-- Witness for C9 amended at a concrete decodable input. -/
theorem C9_normalize_amended_witness :
    ∃ r, normalizeFilepath "a%20b" = some r ∧ r.toList.head? = some '/' :=
  (C9_normalize_amended "a%20b").2.1 "a b" (by decide) (by decide)

/-! ## Claim C5 -/

/-- C5 counterexample: the sender `https://hyperdrive.network/app` is
privileged according to `isSenderBeaker`, yet its `writeFile` against a
drive at the allowance cap fails with `QuotaExceeded`, because the quota
exemption tests the extracted origin for the `beaker:` scheme rather
than the privileged-sender test. -/
theorem C5_cx_privileged_sender_hits_quota :
    isSenderBeaker "https://hyperdrive.network/app" = true ∧
    (writeFileOp envAtCap "https://hyperdrive.network/app" urlA 1 none w0).1 =
      .error .quotaExceeded := by
  decide

/-- C5 amended: the quota check exempts exactly the senders whose
extracted origin starts with `beaker:`: such a sender never fails with
`QuotaExceeded` for any byte size, while for any other origin the check
fails exactly when the projected size exceeds the allowance (so a
privileged sender recognized through the hyperdrive.network URL
patterns is not exempt). -/
theorem C5_quota_beaker_origin_exempt (env : Env) (drive : Drive)
    (origin : String) (b : Nat) (w : World) :
    (strStartsWith origin "beaker:" = true →
      assertQuotaPermission env drive origin b w = (.ok (), w)) ∧
    (strStartsWith origin "beaker:" = false →
      ((assertQuotaPermission env drive origin b w).1 = .error .quotaExceeded ↔
        DAT_QUOTA_DEFAULT_BYTES_ALLOWED < env.metaSize drive.key + b)) := by
  constructor
  · intro h
    unfold assertQuotaPermission
    simp [h]
  · intro h
    unfold assertQuotaPermission
    simp only [h]
    by_cases h2 : DAT_QUOTA_DEFAULT_BYTES_ALLOWED < env.metaSize drive.key + b
    · simp [h2]
    · simp [h2]

/-- Witness for C5 amended: a beaker-origin sender passes the quota
check at any size, even at the cap. -/
theorem C5_quota_beaker_origin_exempt_witness :
    assertQuotaPermission envAtCap driveA "beaker://library" 999999999 w0 =
      (.ok (), w0) :=
  (C5_quota_beaker_origin_exempt envAtCap driveA "beaker://library"
    999999999 w0).1 (by decide)

/-! ## Claim C6 -/

/-- C6 counterexample: `loadDrive` is a public operation of the gateway,
yet a successful invocation appends no audit entry — its source (lines
125-131) has no `auditLog.record` wrapper — refuting the claim that
every public operation appends exactly one entry. -/
theorem C6_cx_loadDrive_appends_no_audit :
    (loadDriveOp envFix ("hyper://" ++ k64) w0).1 = .ok true ∧
    ((loadDriveOp envFix ("hyper://" ++ k64) w0).2).audit = [] := by
  decide

/-- C6 amended: the audit wrapper appends exactly one entry before
running the wrapped operation and does not alter its result or error;
each audited operation (shown for `writeFile`, once its URL parses and
its path decodes) therefore appends exactly one audit entry per
invocation whether the body succeeds or fails — but `loadDrive` (and the
other unaudited operations) append none. -/
theorem C6_audit_one_entry_per_audited_op :
    (∀ (α : Type) (actor action : String) (sz : Option Nat) (op : M α)
       (w : World),
      auditRecord actor action sz op w =
        op { w with audit := w.audit ++ [⟨actor, action, sz⟩] }) ∧
    (∀ (env : Env) (u url : String) (dataLen : Nat) (topt : Option Nat)
       (w : World) (urlp : ParsedUrl) (fp : String),
      parseDriveUrl url = some urlp →
      normalizeFilepath urlp.pathname = some fp →
      ((writeFileOp env u url dataLen topt w).2).audit =
        w.audit ++ [⟨u, "writeFile", some dataLen⟩]) := by
  constructor
  · intro α actor action sz op w
    rfl
  · intro env u url dataLen topt w urlp fp hp hn
    unfold writeFileOp
    simp only [hp, hn]
    show ((auditRecord u "writeFile" (some dataLen)
      (timerM (toTimeout topt) (writeFileBody env u urlp fp dataLen)) w).2).audit
      = w.audit ++ [⟨u, "writeFile", some dataLen⟩]
    unfold auditRecord
    have := timerM_audit (toTimeout topt) (writeFileBody env u urlp fp dataLen)
      (writeFileBody_auditFree env u urlp fp dataLen)
      { w with audit := w.audit ++ [⟨u, "writeFile", some dataLen⟩] }
    rw [this]

/-- Witness for C6 amended: a concrete failing `writeFile` (user denies
the prompt) still appends exactly one audit entry. -/
theorem C6_audit_one_entry_per_audited_op_witness :
    ((writeFileOp envFix "https://app.example.com/" urlA 3 none w0).2).audit =
      [] ++ [⟨"https://app.example.com/", "writeFile", some 3⟩] :=
  (C6_audit_one_entry_per_audited_op).2 envFix "https://app.example.com/"
    urlA 3 none w0
    { protocol := "hyper:", hostname := k64, version := none,
      pathname := "/notes.txt", origin := "hyper://" ++ k64 }
    "/notes.txt" (by decide) (by decide)

/-! ## Claim C4 -/

/-- Unfolding of one step of `quotaSeq` for a non-privileged origin. -/
theorem quotaSeq_cons (drive : Drive) (origin : String)
    (h : strStartsWith origin "beaker:" = false) (sz b : Nat) (bs : List Nat) :
    quotaSeq drive origin sz (b :: bs) =
      if DAT_QUOTA_DEFAULT_BYTES_ALLOWED < sz + b then some 0
      else (quotaSeq drive origin (sz + b) bs).map (fun i => i + 1) := by
  show (match (assertQuotaPermission (envAtSize sz) drive origin b w0).1 with
    | .error _ => some 0
    | .ok _ => (quotaSeq drive origin (sz + b) bs).map (fun i => i + 1)) = _
  unfold assertQuotaPermission
  simp only [h, Bool.false_eq_true, if_false, envAtSize]
  by_cases h2 : DAT_QUOTA_DEFAULT_BYTES_ALLOWED < sz + b
  · simp [h2]
  · simp [h2]

/-- Soundness half of the first-crossing characterization: when
`quotaSeq` rejects the write at index `i`, that write crosses the
allowance and every earlier write kept the cumulative size within it. -/
theorem quotaSeq_some_spec (drive : Drive) (origin : String)
    (h : strStartsWith origin "beaker:" = false) :
    ∀ (bs : List Nat) (sz i : Nat), quotaSeq drive origin sz bs = some i →
      i < bs.length ∧
      DAT_QUOTA_DEFAULT_BYTES_ALLOWED < sz + ((bs.take (i + 1)).sum) ∧
      ∀ j < i, sz + ((bs.take (j + 1)).sum) ≤ DAT_QUOTA_DEFAULT_BYTES_ALLOWED := by
  intro bs
  induction bs with
  | nil =>
    intro sz i hq
    simp [quotaSeq] at hq
  | cons b bs ih =>
    intro sz i hq
    rw [quotaSeq_cons drive origin h] at hq
    by_cases h2 : DAT_QUOTA_DEFAULT_BYTES_ALLOWED < sz + b
    · rw [if_pos h2] at hq
      have hi : i = 0 := by
        cases hq
        rfl
      subst hi
      refine ⟨by simp, ?_, by omega⟩
      simpa using h2
    · rw [if_neg h2] at hq
      rw [Option.map_eq_some'] at hq
      obtain ⟨i2, hq2, hi⟩ := hq
      subst hi
      obtain ⟨hl, hc, hall⟩ := ih (sz + b) i2 hq2
      refine ⟨by simpa using Nat.succ_lt_succ hl, ?_, ?_⟩
      · rw [List.take_succ_cons, List.sum_cons]
        omega
      · intro j hj
        cases j with
        | zero =>
          simpa using Nat.le_of_not_lt h2
        | succ j2 =>
          have := hall j2 (by omega)
          rw [List.take_succ_cons, List.sum_cons]
          omega

/-- Completeness half: when `quotaSeq` accepts the whole sequence, every
cumulative size stays within the allowance. -/
theorem quotaSeq_none_spec (drive : Drive) (origin : String)
    (h : strStartsWith origin "beaker:" = false) :
    ∀ (bs : List Nat) (sz : Nat), quotaSeq drive origin sz bs = none →
      ∀ j < bs.length,
        sz + ((bs.take (j + 1)).sum) ≤ DAT_QUOTA_DEFAULT_BYTES_ALLOWED := by
  intro bs
  induction bs with
  | nil =>
    intro sz hq j hj
    simp at hj
  | cons b bs ih =>
    intro sz hq j hj
    rw [quotaSeq_cons drive origin h] at hq
    by_cases h2 : DAT_QUOTA_DEFAULT_BYTES_ALLOWED < sz + b
    · rw [if_pos h2] at hq
      cases hq
    · rw [if_neg h2] at hq
      rw [Option.map_eq_none'] at hq
      cases j with
      | zero =>
        simpa using Nat.le_of_not_lt h2
      | succ j2 =>
        have := ih (sz + b) hq j2 (by simpa using Nat.lt_of_succ_lt_succ hj)
        rw [List.take_succ_cons, List.sum_cons]
        omega

/-- C4: for a non-privileged origin the quota check against the freshly
fetched size `S = env.metaSize key` and the default allowance `A`
succeeds exactly when `S + B ≤ A` and fails with `QuotaExceeded` exactly
when `S + B > A`; and over a sequence of writes whose accepted bytes
accrue to the accounted size, the write `quotaSeq` rejects is exactly
the first one whose cumulative size crosses the allowance, every
earlier write fitting within it, while a fully accepted sequence never
crosses it. -/
theorem C4_quota_check_iff_and_first_crossing (drive : Drive)
    (origin : String) (h : strStartsWith origin "beaker:" = false) :
    (∀ (env : Env) (b : Nat) (w : World),
      ((assertQuotaPermission env drive origin b w).1 = .ok () ↔
        env.metaSize drive.key + b ≤ DAT_QUOTA_DEFAULT_BYTES_ALLOWED)) ∧
    (∀ (env : Env) (b : Nat) (w : World),
      ((assertQuotaPermission env drive origin b w).1 = .error .quotaExceeded ↔
        DAT_QUOTA_DEFAULT_BYTES_ALLOWED < env.metaSize drive.key + b)) ∧
    (∀ (bs : List Nat) (sz i : Nat), quotaSeq drive origin sz bs = some i →
      i < bs.length ∧
      DAT_QUOTA_DEFAULT_BYTES_ALLOWED < sz + ((bs.take (i + 1)).sum) ∧
      ∀ j < i, sz + ((bs.take (j + 1)).sum) ≤ DAT_QUOTA_DEFAULT_BYTES_ALLOWED) ∧
    (∀ (bs : List Nat) (sz : Nat), quotaSeq drive origin sz bs = none →
      ∀ j < bs.length,
        sz + ((bs.take (j + 1)).sum) ≤ DAT_QUOTA_DEFAULT_BYTES_ALLOWED) := by
  refine ⟨?_, ?_, quotaSeq_some_spec drive origin h,
    quotaSeq_none_spec drive origin h⟩
  · intro env b w
    unfold assertQuotaPermission
    simp only [h, Bool.false_eq_true, if_false]
    by_cases h2 : DAT_QUOTA_DEFAULT_BYTES_ALLOWED < env.metaSize drive.key + b
    · simp only [if_pos h2]
      constructor
      · intro hc
        exact absurd hc (by simp)
      · intro hc
        omega
    · simp only [if_neg h2]
      constructor
      · intro _
        omega
      · intro _
        trivial
  · intro env b w
    unfold assertQuotaPermission
    simp only [h, Bool.false_eq_true, if_false]
    by_cases h2 : DAT_QUOTA_DEFAULT_BYTES_ALLOWED < env.metaSize drive.key + b
    · simp only [if_pos h2]
      constructor
      · intro _
        exact h2
      · intro _
        trivial
    · simp only [if_neg h2]
      constructor
      · intro hc
        exact absurd hc (by simp)
      · intro hc
        exact absurd hc h2

/-- Witness for C4: the check accepts a one-byte write at size zero, and
on the sequence `[4, 5, 2, 1]` from ten bytes under the cap it rejects
exactly the third write, the first to cross the allowance. -/
theorem C4_quota_check_iff_and_first_crossing_witness :
    (assertQuotaPermission envFix driveA "https://app.example.com/" 1 w0).1 =
      .ok () ∧
    (2 < [4, 5, 2, 1].length ∧
     DAT_QUOTA_DEFAULT_BYTES_ALLOWED <
       (DAT_QUOTA_DEFAULT_BYTES_ALLOWED - 10) + (([4, 5, 2, 1].take 3).sum) ∧
     ∀ j < 2, (DAT_QUOTA_DEFAULT_BYTES_ALLOWED - 10) +
       (([4, 5, 2, 1].take (j + 1)).sum) ≤ DAT_QUOTA_DEFAULT_BYTES_ALLOWED) :=
  ⟨((C4_quota_check_iff_and_first_crossing driveA "https://app.example.com/"
      (by decide)).1 envFix 1 w0).mpr (by decide),
   (C4_quota_check_iff_and_first_crossing driveA "https://app.example.com/"
      (by decide)).2.2.1 [4, 5, 2, 1] (DAT_QUOTA_DEFAULT_BYTES_ALLOWED - 10) 2
      (by decide)⟩

/-! ## Claim C1 -/

/-- C1: `assertWritePermission` decides in fixed order with the first
match winning.  A privileged sender is always allowed; otherwise a
sender whose own URL resolves to the key of the target drive is always
allowed, with no prompt and no grant consulted or created — even with
zero cached grants, since the world is universally quantified; otherwise
an existing true cached grant for `modifyDrive:key` allows without
prompting; otherwise the user is prompted: approval allows and caches a
new true grant, while rejection or dismissal fails with `UserDenied` and
caches nothing. -/
theorem C1_assertWritePermission_decision_order (env : Env) (drive : Drive)
    (u : String) (w : World) :
    (isSenderBeaker u = true →
      assertWritePermission env drive u w = (.ok (), w)) ∧
    (isSenderBeaker u = false →
     urlDriveKey env u = some drive.key →
      (assertWritePermission env drive u w).1 = .ok () ∧
      ((assertWritePermission env drive u w).2).grants = w.grants ∧
      promptCount ((assertWritePermission env drive u w).2).events =
        promptCount w.events) ∧
    (isSenderBeaker u = false →
     ¬ urlDriveKey env u = some drive.key →
     grantLookup w.grants u ("modifyDrive:" ++ drive.key) = some true →
      (assertWritePermission env drive u w).1 = .ok () ∧
      ((assertWritePermission env drive u w).2).grants = w.grants ∧
      promptCount ((assertWritePermission env drive u w).2).events =
        promptCount w.events) ∧
    (isSenderBeaker u = false →
     ¬ urlDriveKey env u = some drive.key →
     ¬ grantLookup w.grants u ("modifyDrive:" ++ drive.key) = some true →
     env.approve ("modifyDrive:" ++ drive.key) = true →
      (assertWritePermission env drive u w).1 = .ok () ∧
      ((assertWritePermission env drive u w).2).grants =
        ((u, "modifyDrive:" ++ drive.key), true) :: w.grants ∧
      promptCount ((assertWritePermission env drive u w).2).events =
        promptCount w.events + 1) ∧
    (isSenderBeaker u = false →
     ¬ urlDriveKey env u = some drive.key →
     ¬ grantLookup w.grants u ("modifyDrive:" ++ drive.key) = some true →
     env.approve ("modifyDrive:" ++ drive.key) = false →
      (assertWritePermission env drive u w).1 = .error .userDenied ∧
      ((assertWritePermission env drive u w).2).grants = w.grants) := by
  refine ⟨?_, ?_, ?_, ?_, ?_⟩
  · intro h1
    unfold assertWritePermission
    simp [h1, pureM]
  · intro h1 h2
    unfold assertWritePermission
    simp only [h1, Bool.false_eq_true, if_false, M.bind, lookupUrlDriveKey,
      h2, if_pos]
    exact ⟨rfl, lookupWorld_grants u w, lookupWorld_promptCount u w⟩
  · intro h1 h2 h3
    unfold assertWritePermission
    simp only [h1, Bool.false_eq_true, if_false, M.bind, lookupUrlDriveKey,
      if_neg h2, queryPermission, lookupWorld_grants, h3, if_pos, pureM]
    refine ⟨trivial, by simp [World.push, lookupWorld_grants], ?_⟩
    have hlp := lookupWorld_promptCount u w
    simp [World.push, promptCount, List.filter_append, Event.isPrompt]
      at hlp ⊢
    omega
  · intro h1 h2 h3 h4
    unfold assertWritePermission
    simp only [h1, Bool.false_eq_true, if_false, M.bind, lookupUrlDriveKey,
      if_neg h2, queryPermission, lookupWorld_grants, if_neg h3,
      requestPermission, World.push, h4, if_pos, pureM]
    refine ⟨by simp, by simp [lookupWorld_grants], ?_⟩
    have hlp := lookupWorld_promptCount u w
    simp [promptCount, List.filter_append, Event.isPrompt] at hlp ⊢
    omega
  · intro h1 h2 h3 h4
    unfold assertWritePermission
    simp only [h1, Bool.false_eq_true, if_false, M.bind, lookupUrlDriveKey,
      if_neg h2, queryPermission, lookupWorld_grants, if_neg h3,
      requestPermission, World.push, h4, Bool.false_eq_true, if_false,
      throwM]
    simp [lookupWorld_grants]

/-- Witness for C1: each decision branch at a concrete input — a beaker
sender, a self-origin sender with zero cached grants, a sender with a
cached true grant, and an unknown sender prompting the user who approves
(new grant cached) or declines (`UserDenied`). -/
theorem C1_assertWritePermission_decision_order_witness :
    (assertWritePermission envFix driveA "beaker://library/" w0 =
      (.ok (), w0)) ∧
    ((assertWritePermission envFix driveA "hyper://self.example.com/" w0).1 =
      .ok () ∧
     ((assertWritePermission envFix driveA "hyper://self.example.com/" w0).2).grants = [] ∧
     promptCount ((assertWritePermission envFix driveA
       "hyper://self.example.com/" w0).2).events = promptCount w0.events) ∧
    ((assertWritePermission envFix driveA "https://app.example.com/" wGrant).1 =
      .ok ()) ∧
    ((assertWritePermission envYes driveA "https://app.example.com/" w0).1 =
      .ok () ∧
     ((assertWritePermission envYes driveA "https://app.example.com/" w0).2).grants =
       (("https://app.example.com/", "modifyDrive:" ++ driveA.key), true) :: []) ∧
    ((assertWritePermission envFix driveA "https://app.example.com/" w0).1 =
      .error .userDenied) := by
  refine ⟨?_, ?_, ?_, ?_, ?_⟩
  · exact (C1_assertWritePermission_decision_order envFix driveA
      "beaker://library/" w0).1 (by decide)
  · exact (C1_assertWritePermission_decision_order envFix driveA
      "hyper://self.example.com/" w0).2.1 (by decide) (by decide)
  · exact ((C1_assertWritePermission_decision_order envFix driveA
      "https://app.example.com/" wGrant).2.2.1 (by decide) (by decide)
      (by decide)).1
  · refine ⟨?_, ?_⟩
    · exact ((C1_assertWritePermission_decision_order envYes driveA
        "https://app.example.com/" w0).2.2.2.1 (by decide) (by decide)
        (by decide) (by decide)).1
    · exact ((C1_assertWritePermission_decision_order envYes driveA
        "https://app.example.com/" w0).2.2.2.1 (by decide) (by decide)
        (by decide) (by decide)).2.1
  · exact ((C1_assertWritePermission_decision_order envFix driveA
      "https://app.example.com/" w0).2.2.2.2 (by decide) (by decide)
      (by decide) (by decide)).1

/-! ## Claim C2 -/

/-- C2: for every actor and every URL carrying an explicit version, the
mutating operations `writeFile`, `mkdir`, `symlink` and `mount` fail
with `ArchiveNotWritable` immediately after resolving the historic
checkout: the only events recorded are the timer start, the advisory
checkin and the drive lookup — no permission, quota or path check is
consulted and no mutation is attempted, regardless of the permission
state carried by the world. -/
theorem C2_historic_checkout_not_writable (env : Env) (u url linknameRaw :
    String) (dataLen : Nat) (topt : Option Nat) (w : World)
    (urlp : ParsedUrl) (v : String) (fp ln : String) (d : Drive)
    (hp : parseDriveUrl url = some urlp)
    (hv : urlp.version = some v)
    (hn : normalizeFilepath urlp.pathname = some fp)
    (hn2 : normalizeFilepath linknameRaw = some ln)
    (hd : env.drives urlp.hostname = some d) :
    (writeFileOp env u url dataLen topt w =
      (.error .archiveNotWritable,
       { grants := w.grants
         audit := w.audit ++ [⟨u, "writeFile", some dataLen⟩]
         events := w.events ++ [.timerStart, .checkin "looking up drive",
           .driveLookup urlp.hostname (some v)] }) ∧
     (([.timerStart, .checkin "looking up drive",
        .driveLookup urlp.hostname (some v)] : List Event).all
        (fun e => ¬ e.isCheckOrMutation)) = true) ∧
    (mkdirOp env u url topt w =
      (.error .archiveNotWritable,
       { grants := w.grants
         audit := w.audit ++ [⟨u, "mkdir", none⟩]
         events := w.events ++ [.timerStart, .checkin "searching for drive",
           .driveLookup urlp.hostname (some v)] }) ∧
     (([.timerStart, .checkin "searching for drive",
        .driveLookup urlp.hostname (some v)] : List Event).all
        (fun e => ¬ e.isCheckOrMutation)) = true) ∧
    (symlinkOp env u url linknameRaw topt w =
      (.error .archiveNotWritable,
       { grants := w.grants
         audit := w.audit ++ [⟨u, "symlink", none⟩]
         events := w.events ++ [.timerStart, .checkin "searching for drive",
           .driveLookup urlp.hostname (some v)] })) ∧
    (mountOp env u url topt w =
      (.error .archiveNotWritable,
       { grants := w.grants
         audit := w.audit ++ [⟨u, "mount", none⟩]
         events := w.events ++ [.timerStart, .checkin "searching for drive",
           .driveLookup urlp.hostname (some v)] })) := by
  refine ⟨⟨?_, by simp [Event.isCheckOrMutation]⟩,
    ⟨?_, by simp [Event.isCheckOrMutation]⟩, ?_, ?_⟩
  · unfold writeFileOp
    simp only [hp, hn]
    unfold auditRecord timerM writeFileBody M.bind checkinM emitM lookupDrive
    simp only [hd, hv, Option.isSome_some, if_true, throwM, World.push]
    simp [List.append_assoc]
  · unfold mkdirOp
    simp only [hp, hn]
    unfold auditRecord timerM mkdirBody M.bind checkinM emitM lookupDrive
    simp only [hd, hv, Option.isSome_some, if_true, throwM, World.push]
    simp [List.append_assoc]
  · unfold symlinkOp
    simp only [hp, hn, hn2]
    unfold auditRecord timerM symlinkBody M.bind checkinM emitM lookupDrive
    simp only [hd, hv, Option.isSome_some, if_true, throwM, World.push]
    simp [List.append_assoc]
  · unfold mountOp
    simp only [hp, hn]
    unfold auditRecord timerM mountBody M.bind checkinM emitM lookupDrive
    simp only [hd, hv, Option.isSome_some, if_true, throwM, World.push]
    simp [List.append_assoc]

/-- Witness for C2: a versioned URL on the concrete drive, with a
permissive world (a cached grant) that the historic check never
consults. -/
theorem C2_historic_checkout_not_writable_witness :
    writeFileOp envFix "https://app.example.com/"
      ("hyper://" ++ k64 ++ "+5/notes.txt") 3 none wGrant =
      (.error .archiveNotWritable,
       { grants := wGrant.grants
         audit := wGrant.audit ++
           [⟨"https://app.example.com/", "writeFile", some 3⟩]
         events := wGrant.events ++ [.timerStart,
           .checkin "looking up drive", .driveLookup k64 (some "5")] }) :=
  ((C2_historic_checkout_not_writable envFix "https://app.example.com/"
    ("hyper://" ++ k64 ++ "+5/notes.txt") "/x" 3 none wGrant
    { protocol := "hyper:", hostname := k64, version := some "5",
      pathname := "/notes.txt", origin := "hyper://" ++ k64 }
    "5" "/notes.txt" "/x" driveA
    (by decide) (by decide) (by decide) (by decide) (by decide)).1).1

/-! ## Claim C3 -/

/-- Run shape of the quota check. -/
theorem assertQuotaPermission_run (env : Env) (d : Drive) (origin : String)
    (b : Nat) (w : World) :
    assertQuotaPermission env d origin b w =
      (if strStartsWith origin "beaker:" then (.ok (), w)
       else if DAT_QUOTA_DEFAULT_BYTES_ALLOWED < env.metaSize d.key + b then
         (.error .quotaExceeded, w.push (.quotaCheck d.key b))
       else (.ok (), w.push (.quotaCheck d.key b))) := by
  unfold assertQuotaPermission
  split
  · rfl
  · dsimp only

/-- Run shape of the write-permission check for a non-privileged,
non-self sender holding a cached true grant: allowed, one permission
query recorded, no prompt. -/
theorem assertWritePermission_grant_run (env : Env) (d : Drive) (u : String)
    (h1 : isSenderBeaker u = false) (hns : ¬ urlDriveKey env u = some d.key)
    (w' : World)
    (hgr : grantLookup w'.grants u ("modifyDrive:" ++ d.key) = some true) :
    assertWritePermission env d u w' =
      (.ok (), (lookupWorld u w').push (.permQuery ("modifyDrive:" ++ d.key))) := by
  unfold assertWritePermission
  simp only [h1, Bool.false_eq_true, if_false, M.bind, lookupUrlDriveKey,
    if_neg hns, queryPermission, lookupWorld_grants, hgr, if_pos, pureM]

/-- Run shape of the write-permission check for a privileged sender:
allowed at once, world untouched. -/
theorem assertWritePermission_beaker_run (env : Env) (d : Drive) (u : String)
    (h1 : isSenderBeaker u = true) (w' : World) :
    assertWritePermission env d u w' = (.ok (), w') := by
  unfold assertWritePermission
  simp [h1, pureM]

theorem unlinkBody_noMut (env : Env) (u : String) (urlp : ParsedUrl)
    (fp : String) : NoMutOnGatewayError (unlinkBody env u urlp fp) := by
  unfold unlinkBody
  refine noMut_bind (emitM_mutFree _ rfl) (fun _ => ?_)
  refine noMut_bind (lookupDrive_mutFree env _ _) (fun dh => ?_)
  split
  · exact MutFree.noMut (throwM_mutFree _)
  · refine noMut_bind (emitM_mutFree _ rfl) (fun _ => ?_)
    refine noMut_bind (assertWritePermission_mutFree env _ u) (fun _ => ?_)
    refine noMut_bind (assertUnprotectedFilePath_mutFree fp u) (fun _ => ?_)
    refine noMut_bind (emitM_mutFree _ rfl) (fun _ => ?_)
    refine noMut_bind (emitM_mutFree _ rfl) (fun _ => ?_)
    exact fsOp_noMut env _ fp

theorem mkdirBody_noMut (env : Env) (u : String) (urlp : ParsedUrl)
    (fp : String) : NoMutOnGatewayError (mkdirBody env u urlp fp) := by
  unfold mkdirBody
  refine noMut_bind (emitM_mutFree _ rfl) (fun _ => ?_)
  refine noMut_bind (lookupDrive_mutFree env _ _) (fun dh => ?_)
  split
  · exact MutFree.noMut (throwM_mutFree _)
  · refine noMut_bind (emitM_mutFree _ rfl) (fun _ => ?_)
    refine noMut_bind (assertWritePermission_mutFree env _ u) (fun _ => ?_)
    refine noMut_bind (assertValidPath_mutFree fp) (fun _ => ?_)
    refine noMut_bind (assertUnprotectedFilePath_mutFree fp u) (fun _ => ?_)
    refine noMut_bind (emitM_mutFree _ rfl) (fun _ => ?_)
    refine noMut_bind (emitM_mutFree _ rfl) (fun _ => ?_)
    exact fsOp_noMut env _ fp

theorem writeFileOp_noMut (env : Env) (u url : String) (dataLen : Nat)
    (topt : Option Nat) : NoMutOnGatewayError (writeFileOp env u url dataLen topt) := by
  unfold writeFileOp
  split
  · exact MutFree.noMut (throwM_mutFree _)
  · split
    · exact MutFree.noMut (throwM_mutFree _)
    · exact auditRecord_noMut _ _ _ _
        (timerM_noMut _ _ (writeFileBody_noMut _ _ _ _ _))

theorem unlinkOp_noMut (env : Env) (u url : String) (topt : Option Nat) :
    NoMutOnGatewayError (unlinkOp env u url topt) := by
  unfold unlinkOp
  split
  · exact MutFree.noMut (throwM_mutFree _)
  · split
    · exact MutFree.noMut (throwM_mutFree _)
    · exact auditRecord_noMut _ _ _ _
        (timerM_noMut _ _ (unlinkBody_noMut _ _ _ _))

theorem mkdirOp_noMut (env : Env) (u url : String) (topt : Option Nat) :
    NoMutOnGatewayError (mkdirOp env u url topt) := by
  unfold mkdirOp
  split
  · exact MutFree.noMut (throwM_mutFree _)
  · split
    · exact MutFree.noMut (throwM_mutFree _)
    · exact auditRecord_noMut _ _ _ _
        (timerM_noMut _ _ (mkdirBody_noMut _ _ _ _))

/-- C3 counterexample: a non-privileged sender with no cached grant
writing the manifest path is stopped by the earlier permission prompt —
the user declines and the call fails with `UserDenied`, not with
`ProtectedFileNotWritable` as the claim states for every non-privileged
actor. -/
theorem C3_cx_denied_before_protection :
    isSenderBeaker "https://app.example.com/" = false ∧
    (writeFileOp envFix "https://app.example.com/"
      ("hyper://" ++ k64 ++ "/index.json") 3 none w0).1 = .error .userDenied ∧
    (Except.error Err.userDenied : Except Err Unit) ≠
      .error .protectedFileNotWritable := by
  refine ⟨by decide, by decide, by decide⟩

/-- C3 amended: once the checks that precede the protection check pass
— live checkout, write permission (here a non-privileged, non-self
sender with a cached true grant), quota for `writeFile`, and path
validity — `writeFile`, `unlink` and `mkdir` against the manifest path
fail with `ProtectedFileNotWritable` and never reach the underlying
file primitive; a privileged sender is not subject to the protection
check and its `writeFile` reaches the primitive on the manifest path. -/
theorem C3_manifest_protected_amended (env : Env) (u url : String)
    (dataLen : Nat) (topt : Option Nat) (w : World) (urlp : ParsedUrl)
    (d : Drive)
    (hp : parseDriveUrl url = some urlp)
    (hv : urlp.version = none)
    (hn : normalizeFilepath urlp.pathname =
      some ("/" ++ DRIVE_MANIFEST_FILENAME))
    (hd : env.drives urlp.hostname = some d) :
    (isSenderBeaker u = false →
     ¬ urlDriveKey env u = some d.key →
     grantLookup w.grants u ("modifyDrive:" ++ d.key) = some true →
      ((env.metaSize d.key + dataLen ≤ DAT_QUOTA_DEFAULT_BYTES_ALLOWED →
        (writeFileOp env u url dataLen topt w).1 =
          .error .protectedFileNotWritable ∧
        ((writeFileOp env u url dataLen topt w).2).events.filter
          Event.isMutation = w.events.filter Event.isMutation) ∧
       ((unlinkOp env u url topt w).1 = .error .protectedFileNotWritable ∧
        ((unlinkOp env u url topt w).2).events.filter Event.isMutation =
          w.events.filter Event.isMutation) ∧
       ((mkdirOp env u url topt w).1 = .error .protectedFileNotWritable ∧
        ((mkdirOp env u url topt w).2).events.filter Event.isMutation =
          w.events.filter Event.isMutation))) ∧
    (isSenderBeaker u = true →
     strStartsWith (extractOrigin u) "beaker:" = true →
      ((writeFileOp env u url dataLen topt w).2).events =
        w.events ++ [.timerStart, .checkin "looking up drive",
          .driveLookup urlp.hostname none, .pause,
          .validPathCheck ("/" ++ DRIVE_MANIFEST_FILENAME),
          .protectedCheck ("/" ++ DRIVE_MANIFEST_FILENAME), .resume,
          .checkin "writing file",
          .fsMutate "writeFile" ("/" ++ DRIVE_MANIFEST_FILENAME)]) := by
  have hlc : lastCharIs ("/" ++ DRIVE_MANIFEST_FILENAME) '/' = false := by
    decide
  have hvp : validPathStr ("/" ++ DRIVE_MANIFEST_FILENAME) = true := by
    decide
  constructor
  · intro h1 hns hgr
    refine ⟨?_, ?_, ?_⟩
    · intro hq
      have hres : (writeFileOp env u url dataLen topt w).1 =
          .error .protectedFileNotWritable := by
        unfold writeFileOp
        simp only [hp, hn]
        unfold auditRecord timerM writeFileBody M.bind checkinM pauseM resumeM
          emitM lookupDrive
        simp only [hd, hv, Option.isSome_none, Bool.false_eq_true, if_false]
        rw [assertWritePermission_grant_run env d u h1 hns _
          (by simp [World.push, hgr])]
        simp only [assertQuotaPermission_run]
        by_cases hb : strStartsWith (extractOrigin u) "beaker:" = true
        · simp only [hb, if_true]
          unfold assertValidFilePath assertValidPath
            assertUnprotectedFilePath
          simp only [hlc, hvp, Bool.false_eq_true, if_false, if_true, h1]
        · simp only [hb, Bool.false_eq_true, if_false]
          rw [if_neg (Nat.not_lt.mpr hq)]
          unfold assertValidFilePath assertValidPath
            assertUnprotectedFilePath
          simp only [hlc, hvp, Bool.false_eq_true, if_false, if_true, h1]
      exact ⟨hres, writeFileOp_noMut env u url dataLen topt w
        .protectedFileNotWritable hres rfl⟩
    · have hres : (unlinkOp env u url topt w).1 =
          .error .protectedFileNotWritable := by
        unfold unlinkOp
        simp only [hp, hn]
        unfold auditRecord timerM unlinkBody M.bind checkinM pauseM resumeM
          emitM lookupDrive
        simp only [hd, hv, Option.isSome_none, Bool.false_eq_true, if_false]
        rw [assertWritePermission_grant_run env d u h1 hns _
          (by simp [World.push, hgr])]
        unfold assertUnprotectedFilePath
        simp only [h1, Bool.false_eq_true, if_false]
        simp
      exact ⟨hres, unlinkOp_noMut env u url topt w
        .protectedFileNotWritable hres rfl⟩
    · have hres : (mkdirOp env u url topt w).1 =
          .error .protectedFileNotWritable := by
        unfold mkdirOp
        simp only [hp, hn]
        unfold auditRecord timerM mkdirBody M.bind checkinM pauseM resumeM
          emitM lookupDrive
        simp only [hd, hv, Option.isSome_none, Bool.false_eq_true, if_false]
        rw [assertWritePermission_grant_run env d u h1 hns _
          (by simp [World.push, hgr])]
        unfold assertValidPath assertUnprotectedFilePath
        simp only [hvp, if_true, h1, Bool.false_eq_true, if_false]
      exact ⟨hres, mkdirOp_noMut env u url topt w
        .protectedFileNotWritable hres rfl⟩
  · intro h1 horig
    unfold writeFileOp
    simp only [hp, hn]
    unfold auditRecord timerM writeFileBody M.bind checkinM pauseM resumeM
      emitM lookupDrive
    simp only [hd, hv, Option.isSome_none, Bool.false_eq_true, if_false]
    rw [assertWritePermission_beaker_run env d u h1]
    simp only [assertQuotaPermission_run, horig, if_true]
    unfold assertValidFilePath assertValidPath assertUnprotectedFilePath
    simp only [hlc, hvp, Bool.false_eq_true, if_false, if_true, h1]
    unfold fsOp
    cases hfs : env.fsOutcome "writeFile" ("/" ++ DRIVE_MANIFEST_FILENAME) <;>
      simp [hfs, World.push, List.append_assoc]

/-- Witness for C3 amended: the concrete granted sender and the
concrete beaker sender against the manifest path of `driveA`. -/
theorem C3_manifest_protected_amended_witness :
    ((writeFileOp envFix "https://app.example.com/"
        ("hyper://" ++ k64 ++ "/index.json") 3 none wGrant).1 =
      .error .protectedFileNotWritable) ∧
    ((writeFileOp envFix "beaker://library/"
        ("hyper://" ++ k64 ++ "/index.json") 3 none w0).2).events =
      w0.events ++ [.timerStart, .checkin "looking up drive",
        .driveLookup k64 none, .pause,
        .validPathCheck ("/" ++ DRIVE_MANIFEST_FILENAME),
        .protectedCheck ("/" ++ DRIVE_MANIFEST_FILENAME), .resume,
        .checkin "writing file",
        .fsMutate "writeFile" ("/" ++ DRIVE_MANIFEST_FILENAME)] := by
  constructor
  · exact (((C3_manifest_protected_amended envFix "https://app.example.com/"
      ("hyper://" ++ k64 ++ "/index.json") 3 none wGrant
      { protocol := "hyper:", hostname := k64, version := none,
        pathname := "/index.json", origin := "hyper://" ++ k64 }
      driveA (by decide) (by decide) (by decide) (by decide)).1
      (by decide) (by decide) (by decide)).1 (by decide)).1
  · exact (C3_manifest_protected_amended envFix "beaker://library/"
      ("hyper://" ++ k64 ++ "/index.json") 3 none w0
      { protocol := "hyper:", hostname := k64, version := none,
        pathname := "/index.json", origin := "hyper://" ++ k64 }
      driveA (by decide) (by decide) (by decide) (by decide)).2
      (by decide) (by decide)

/-! ## Claim C7 -/

theorem sortLe_trans (k : String) (rev : Bool) (a b c : QRes)
    (h1 : sortLe k rev a b = true) (h2 : sortLe k rev b c = true) :
    sortLe k rev a c = true := by
  unfold sortLe at h1 h2 ⊢
  split_ifs at h1 h2 ⊢ <;>
    simp only [decide_eq_true_eq] at h1 h2 ⊢ <;>
    first
      | exact le_trans h1 h2
      | exact le_trans h2 h1

theorem sortLe_total (k : String) (rev : Bool) (a b : QRes) :
    (sortLe k rev a b || sortLe k rev b a) = true := by
  unfold sortLe
  split_ifs <;>
    simp only [Bool.or_eq_true, decide_eq_true_eq] <;>
    exact le_total _ _

/-- Run of `resolveDrives` when pure resolution succeeds: same value,
some event-extended world. -/
theorem resolveDrives_run (env : Env) :
    ∀ (ds : List String) (cs : List (String × Option String)),
      resolveDrivesPure env ds = .ok cs →
      ∀ w, ∃ w2, resolveDrives env ds w = (.ok cs, w2) := by
  intro ds
  induction ds with
  | nil =>
    intro cs h w
    unfold resolveDrivesPure at h
    cases h
    exact ⟨w, rfl⟩
  | cons u us ih =>
    intro cs h w
    unfold resolveDrivesPure at h
    cases hp : parseDriveUrl u with
    | none =>
      simp only [hp] at h
      exact (Except.noConfusion h)
    | some urlp =>
      simp only [hp] at h
      cases hd : env.drives urlp.hostname with
      | none =>
        simp only [hd] at h
        exact (Except.noConfusion h)
      | some d =>
        simp only [hd] at h
        cases hr : resolveDrivesPure env us with
        | error e =>
          simp only [hr] at h
          exact (Except.noConfusion h)
        | ok rest =>
          simp only [hr, Except.ok.injEq] at h
          subst h
          obtain ⟨w2, hw2⟩ := ih rest hr
            (w.push (.driveLookup urlp.hostname urlp.version))
          refine ⟨w2, ?_⟩
          unfold resolveDrives M.bind lookupDrive
          simp only [hp, hd]
          rw [hw2]
          rfl

/-- Run of `queryOp` under a truthy drive option and successful
resolution: the audited, timed body flattens the per-drive results and
re-sorts and re-pages them exactly when more than one drive was
queried. -/
theorem queryOp_run (env : Env) (u : String) (opts : QueryOpts)
    (cs : List (String × Option String))
    (hf : opts.drive.falsy = false)
    (hres : resolveDrivesPure env opts.drive.toList = .ok cs) (w : World) :
    ∃ w2, queryOp env u opts w =
      (.ok (if 1 < cs.length then
         pageSlice opts.offset opts.limit (resort opts.sort opts.reverse
           ((cs.map (fun c => env.queryFn c.1 c.2)).flatten))
       else (cs.map (fun c => env.queryFn c.1 c.2)).flatten), w2) := by
  unfold queryOp
  simp only [hf, Bool.false_eq_true, if_false]
  unfold auditRecord timerM M.bind checkinM emitM
  obtain ⟨w2, hw2⟩ := resolveDrives_run env opts.drive.toList cs hres
    ((({ w with audit := w.audit ++ [AuditEntry.mk u "query" none] }).push
      .timerStart).push (.checkin "looking up drives"))
  dsimp only
  rw [hw2]
  by_cases hlen : 1 < cs.length
  · refine ⟨w2.push (.checkin "running query"), ?_⟩
    simp only [hlen, if_true, gt_iff_lt, pureM]
  · refine ⟨w2.push (.checkin "running query"), ?_⟩
    simp only [hlen, if_false, gt_iff_lt, pureM]

/-- C7: with more than one drive queried, the flattened union of the
per-drive results is re-sorted by the requested key — `name` comparing
lowercased basenames, `mtime`/`ctime` comparing the numeric timestamps,
`reverse` flipping the comparator — and `offset`/`limit` are applied to
the merged, sorted sequence; in particular `limit 1, offset 1, sort
name` yields the window after the globally first name of the union.  A
single-drive query returns the flattened result untouched: no re-sort
and no re-slice. -/
theorem C7_query_merge_sort_paginate (env : Env) (u : String)
    (opts : QueryOpts) (w : World) (cs : List (String × Option String))
    (hf : opts.drive.falsy = false)
    (hres : resolveDrivesPure env opts.drive.toList = .ok cs) :
    (∀ k, opts.sort = some k →
      (k = "name" ∨ k = "mtime" ∨ k = "ctime") → 1 < cs.length →
      ∃ sorted : List QRes,
        sorted.Perm ((cs.map (fun c => env.queryFn c.1 c.2)).flatten) ∧
        sorted.Pairwise (fun a b => sortLe k opts.reverse a b = true) ∧
        (queryOp env u opts w).1 =
          .ok (pageSlice opts.offset opts.limit sorted) ∧
        pageSlice opts.offset opts.limit sorted =
          (if opts.offset ≠ 0 ∧ opts.limit ≠ 0 then
            (sorted.drop opts.offset).take opts.limit
           else if opts.offset ≠ 0 then sorted.drop opts.offset
           else if opts.limit ≠ 0 then sorted.take opts.limit
           else sorted)) ∧
    (opts.sort = some "name" → opts.reverse = false → opts.offset = 1 →
     opts.limit = 1 → 1 < cs.length →
      ∃ sorted : List QRes,
        sorted.Perm ((cs.map (fun c => env.queryFn c.1 c.2)).flatten) ∧
        sorted.Pairwise (fun a b => sortLe "name" false a b = true) ∧
        (queryOp env u opts w).1 = .ok ((sorted.drop 1).take 1)) ∧
    (cs.length ≤ 1 →
      (queryOp env u opts w).1 =
        .ok ((cs.map (fun c => env.queryFn c.1 c.2)).flatten)) := by
  obtain ⟨w2, hrun⟩ := queryOp_run env u opts cs hf hres w
  refine ⟨?_, ?_, ?_⟩
  · intro k hk hkey hlen
    refine ⟨((cs.map (fun c => env.queryFn c.1 c.2)).flatten).mergeSort
      (sortLe k opts.reverse), ?_, ?_, ?_, ?_⟩
    · exact List.mergeSort_perm _ _
    · exact List.sorted_mergeSort
        (fun a b c => sortLe_trans k opts.reverse a b c)
        (fun a b => sortLe_total k opts.reverse a b) _
    · rw [hrun]
      simp only [if_pos hlen]
      rcases hkey with rfl | rfl | rfl <;> simp [resort, hk]
    · rfl
  · intro hk hrev hoff hlim hlen
    refine ⟨((cs.map (fun c => env.queryFn c.1 c.2)).flatten).mergeSort
      (sortLe "name" false), ?_, ?_, ?_⟩
    · exact List.mergeSort_perm _ _
    · exact List.sorted_mergeSort
        (fun a b c => sortLe_trans "name" false a b c)
        (fun a b => sortLe_total "name" false a b) _
    · rw [hrun]
      simp only [if_pos hlen]
      simp [resort, pageSlice, hk, hrev, hoff, hlim]
  · intro hlen
    rw [hrun]
    simp only [if_neg (by omega : ¬ 1 < cs.length)]

/-- Per-drive query results for the witness: two drives whose merged
results interleave by name. -/
def qr1 : QRes := ⟨"/bb.txt", 5, 5⟩

/-- Second witness result. -/
def qr2 : QRes := ⟨"/Aa.txt", 9, 9⟩

/-- Third witness result. -/
def qr3 : QRes := ⟨"/cc.txt", 1, 1⟩

/-- Environment for the query witness: two registered drives and a
query engine returning `[qr1, qr3]` for the first and `[qr2]` for the
second. -/
def envQuery : Env :=
  { envFix with
    drives := fun i => if i = "h1" ∨ i = "h2" then some driveA else none
    queryFn := fun h _ => if h = "h1" then [qr1, qr3] else [qr2] }

/-- Witness for C7: querying the two drives with `limit 1, offset 1,
sort name` yields the window after the first element of the name-sorted
union. -/
theorem C7_query_merge_sort_paginate_witness :
    ∃ sorted : List QRes,
      sorted.Perm ((([("h1", (none : Option String)), ("h2", none)]).map
        (fun c => envQuery.queryFn c.1 c.2)).flatten) ∧
      sorted.Pairwise (fun a b => sortLe "name" false a b = true) ∧
      (queryOp envQuery "https://app.example.com/"
        ⟨.arr ["hyper://h1", "hyper://h2"], some "name", false, 1, 1, none⟩
        w0).1 = .ok ((sorted.drop 1).take 1) :=
  (C7_query_merge_sort_paginate envQuery "https://app.example.com/"
    ⟨.arr ["hyper://h1", "hyper://h2"], some "name", false, 1, 1, none⟩ w0
    [("h1", none), ("h2", none)] (by decide) (by decide)).2.1
    rfl rfl rfl rfl (by decide)

/-! ## Claim C8 -/

/-- Property of a computation that never records an event matched by
`p`. -/
def PFree (p : Event → Bool) {α : Type} (x : M α) : Prop :=
  ∀ w, ((x w).2).events.filter p = w.events.filter p

theorem pFree_bind {p : Event → Bool} {α β : Type} {x : M α} {f : α → M β}
    (hx : PFree p x) (hf : ∀ a, PFree p (f a)) : PFree p (M.bind x f) := by
  intro w
  unfold M.bind
  cases hxy : x w with
  | mk r w1 =>
    have h1 : w1.events.filter p = w.events.filter p := by
      have := hx w
      rw [hxy] at this
      exact this
    cases r with
    | ok a => simpa [h1] using (hf a w1)
    | error e => simpa using h1

theorem emitM_pfree (p : Event → Bool) (e : Event) (he : p e = false) :
    PFree p (emitM e) := by
  intro w
  simp [emitM, World.push, List.filter_append, he]

theorem pureM_pfree (p : Event → Bool) {α : Type} (a : α) :
    PFree p (pureM a) := by
  intro w
  simp [pureM]

theorem throwM_pfree (p : Event → Bool) {α : Type} (e : Err) :
    PFree p (throwM e : M α) := by
  intro w
  simp [throwM]

theorem lookupDrive_pfree (p : Event → Bool) (env : Env) (k : String)
    (v : Option String) (he : ∀ k2 v2, p (.driveLookup k2 v2) = false) :
    PFree p (lookupDrive env k v) := by
  intro w
  unfold lookupDrive
  split <;> simp [World.push, List.filter_append, he]

theorem readSizeOp_pfree (p : Event → Bool) (env : Env) (k q : String)
    (he : ∀ o q2, p (.fsRead o q2) = false) :
    PFree p (readSizeOp env k q) := by
  intro w
  simp [readSizeOp, World.push, List.filter_append, he]

theorem fsOp_pfree (p : Event → Bool) (env : Env) (o q : String)
    (he : ∀ o2 q2, p (.fsMutate o2 q2) = false) :
    PFree p (fsOp env o q) := by
  intro w
  unfold fsOp
  split <;> simp [World.push, List.filter_append, he]

theorem lookupWorld_pfree (p : Event → Bool) (u : String) (w : World)
    (he : ∀ h, p (.dnsResolve h) = false) :
    (lookupWorld u w).events.filter p = w.events.filter p := by
  unfold lookupWorld
  repeat' split
  all_goals simp [World.push, List.filter_append, he]

theorem assertWritePermission_pfree (p : Event → Bool) (env : Env)
    (d : Drive) (u : String)
    (hdns : ∀ h, p (.dnsResolve h) = false)
    (hq : ∀ s, p (.permQuery s) = false)
    (hpr : ∀ s, p (.permPrompt s) = false) :
    PFree p (assertWritePermission env d u) := by
  unfold assertWritePermission
  split
  · exact pureM_pfree p ()
  · refine pFree_bind (fun w => lookupWorld_pfree p u w hdns) (fun a => ?_)
    split
    · exact pureM_pfree p ()
    · refine pFree_bind (fun w => ?_) (fun b => ?_)
      · simp [queryPermission, World.push, List.filter_append, hq]
      · split
        · exact pureM_pfree p ()
        · refine pFree_bind (fun w => ?_) (fun c => ?_)
          · unfold requestPermission
            split <;> simp [World.push, List.filter_append, hpr]
          · split
            · exact pureM_pfree p ()
            · exact throwM_pfree p _

theorem assertQuotaPermission_pfree (p : Event → Bool) (env : Env)
    (d : Drive) (o : String) (b : Nat)
    (he : ∀ k2 b2, p (.quotaCheck k2 b2) = false) :
    PFree p (assertQuotaPermission env d o b) := by
  intro w
  rw [assertQuotaPermission_run]
  split
  · rfl
  · split <;> simp [World.push, List.filter_append, he]

theorem assertUnprotectedFilePath_pfree (p : Event → Bool) (q u : String)
    (he : ∀ s, p (.protectedCheck s) = false) :
    PFree p (assertUnprotectedFilePath q u) := by
  intro w
  unfold assertUnprotectedFilePath
  repeat' split
  all_goals simp [World.push, List.filter_append, he]

theorem timerM_pfree (p : Event → Bool) {α : Type} (t : Nat) (op : M α)
    (ht : p .timerStart = false) (h : PFree p op) : PFree p (timerM t op) := by
  intro w
  unfold timerM
  rw [h (w.push .timerStart)]
  simp [World.push, List.filter_append, ht]

theorem auditRecord_pfree (p : Event → Bool) {α : Type} (a n : String)
    (sz : Option Nat) (op : M α) (h : PFree p op) :
    PFree p (auditRecord a n sz op) := by
  intro w
  unfold auditRecord
  exact h _

/-- The body of `copy` records no path-legality check: no
`validPathCheck` event can appear, on any run. -/
theorem copyBody_noValidPathCheck (env : Env) (u : String) (urlp : ParsedUrl)
    (sp dp : String) (n : Nat) :
    PFree Event.isValidPathCheck (copyBody env u urlp sp dp n) := by
  unfold copyBody
  refine pFree_bind (emitM_pfree _ _ rfl) (fun a => ?_)
  refine pFree_bind (lookupDrive_pfree _ env _ _ (fun k2 v2 => rfl))
    (fun dst => ?_)
  refine pFree_bind (emitM_pfree _ _ rfl) (fun b => ?_)
  refine pFree_bind (assertWritePermission_pfree _ env _ u (fun h => rfl)
    (fun s => rfl) (fun s => rfl)) (fun c => ?_)
  refine pFree_bind (assertUnprotectedFilePath_pfree _ _ u (fun s => rfl))
    (fun e => ?_)
  refine pFree_bind (assertQuotaPermission_pfree _ env _ _ _
    (fun k2 b2 => rfl)) (fun f => ?_)
  refine pFree_bind (emitM_pfree _ _ rfl) (fun g => ?_)
  refine pFree_bind (emitM_pfree _ _ rfl) (fun h => ?_)
  exact fsOp_pfree _ env _ _ (fun o2 q2 => rfl)

/-- The whole `copy` operation records no path-legality check. -/
theorem copyOp_noValidPathCheck (env : Env) (u url dst : String)
    (topt : Option Nat) (w : World) :
    ((copyOp env u url dst topt w).2).events.filter Event.isValidPathCheck =
      w.events.filter Event.isValidPathCheck := by
  unfold copyOp
  cases hp : parseDriveUrl url with
  | none => rfl
  | some urlp =>
    cases hn1 : normalizeFilepath urlp.pathname with
    | none => simp [hn1, throwM]
    | some sp =>
      cases hn2 : normalizeFilepath dst with
      | none => simp [hn1, hn2, throwM]
      | some dp =>
        simp only [hn1, hn2]
        exact (pFree_bind (lookupDrive_pfree _ env _ _ (fun k2 v2 => rfl))
          (fun src => pFree_bind (readSizeOp_pfree _ env _ _
            (fun o2 q2 => rfl)) (fun sz => auditRecord_pfree _ _ _ _ _
              (timerM_pfree _ _ _ rfl
                (copyBody_noValidPathCheck env u _ _ _ sz))))) w

theorem copyOp_noMut (env : Env) (u url dst : String) (topt : Option Nat) :
    NoMutOnGatewayError (copyOp env u url dst topt) := by
  unfold copyOp
  split
  · exact MutFree.noMut (throwM_mutFree _)
  · split
    · exact MutFree.noMut (throwM_mutFree _)
    · split
      · exact MutFree.noMut (throwM_mutFree _)
      · refine noMut_bind (lookupDrive_mutFree env _ _)
          (fun src => ?_)
        refine noMut_bind (readSizeOp_mutFree env _ _)
          (fun sz => ?_)
        exact auditRecord_noMut _ _ _ _
          (timerM_noMut _ _ (copyBody_noMut env u _ _ _ sz))

theorem renameOp_noMut (env : Env) (u url dst : String) (topt : Option Nat) :
    NoMutOnGatewayError (renameOp env u url dst topt) := by
  unfold renameOp
  split
  · exact MutFree.noMut (throwM_mutFree _)
  · split
    · exact MutFree.noMut (throwM_mutFree _)
    · split
      · exact MutFree.noMut (throwM_mutFree _)
      · exact auditRecord_noMut _ _ _ _
          (timerM_noMut _ _ (renameBody_noMut env u _ _ _))

/-- World-effect of a sender lookup that is neither a raw key nor a
hyper URL: nothing is recorded. -/
theorem lookupWorld_id (u : String) (hh1 : isDriveHash u = false)
    (hh2 : strStartsWith u "hyper://" = false) (w2 : World) :
    lookupWorld u w2 = w2 := by
  unfold lookupWorld
  simp [hh1, hh2]

/-- C8 counterexample: a concrete cross-default copy succeeds and
mutates the destination while its whole trace contains no path-legality
check at all, refuting the claim that the destination path-legality
check completes successfully before any mutation for every copy. -/
theorem C8_cx_copy_mutates_without_path_check :
    (copyOp envFix "https://app.example.com/"
      ("hyper://" ++ k64 ++ "/a.txt") "/b.txt" none wGrant).1 = .ok () ∧
    (Event.fsMutate "copy" "/b.txt") ∈
      ((copyOp envFix "https://app.example.com/"
        ("hyper://" ++ k64 ++ "/a.txt") "/b.txt" none wGrant).2).events ∧
    ((copyOp envFix "https://app.example.com/"
      ("hyper://" ++ k64 ++ "/a.txt") "/b.txt" none wGrant).2).events.filter
      Event.isValidPathCheck = [] := by
  refine ⟨by decide, by decide, by decide⟩

/-- C8 amended: for both cross-drive `rename` and `copy`, any failure
of a gateway check (any non-engine error) leaves the trace without a
single mutation, so the source is untouched; when the checks pass, both
endpoints are resolved before the one mutating primitive call, which is
the final event, with the destination write-permission and protection
checks (and for `rename` the destination path-legality check, and for
`copy` the quota check) in between — but `copy` performs no
path-legality check on any run. -/
theorem C8_endpoints_resolved_and_checked_before_mutation :
    (∀ (env : Env) (u url dst : String) (topt : Option Nat) (w : World)
       (e : Err), (renameOp env u url dst topt w).1 = .error e →
       e.isEngine = false →
       ((renameOp env u url dst topt w).2).events.filter Event.isMutation =
         w.events.filter Event.isMutation) ∧
    (∀ (env : Env) (u url dst : String) (topt : Option Nat) (w : World)
       (e : Err), (copyOp env u url dst topt w).1 = .error e →
       e.isEngine = false →
       ((copyOp env u url dst topt w).2).events.filter Event.isMutation =
         w.events.filter Event.isMutation) ∧
    (∀ (env : Env) (u url dst : String) (topt : Option Nat) (w : World),
       ((copyOp env u url dst topt w).2).events.filter
         Event.isValidPathCheck = w.events.filter Event.isValidPathCheck) ∧
    (∀ (env : Env) (u url dstRaw : String) (topt : Option Nat) (w : World)
       (urlp : ParsedUrl) (sp dp : String) (d1 d2 : Drive),
       parseDriveUrl url = some urlp →
       normalizeFilepath urlp.pathname = some sp →
       normalizeFilepath dstRaw = some dp →
       containsSub sp "://" = false →
       containsSub dp "://" = false →
       env.drives urlp.hostname = some d1 →
       env.drives urlp.origin = some d2 →
       isSenderBeaker u = false →
       isDriveHash u = false →
       strStartsWith u "hyper://" = false →
       ¬ urlDriveKey env u = some d2.key →
       grantLookup w.grants u ("modifyDrive:" ++ d2.key) = some true →
       validPathStr dp = true →
       ¬ sp = "/" ++ DRIVE_MANIFEST_FILENAME →
       ¬ dp = "/" ++ DRIVE_MANIFEST_FILENAME →
       ((renameOp env u url dstRaw topt w).2).events =
         w.events ++ [.timerStart, .checkin "searching for drive",
           .driveLookup urlp.hostname urlp.version,
           .driveLookup urlp.origin none, .pause,
           .permQuery ("modifyDrive:" ++ d2.key), .validPathCheck dp,
           .protectedCheck sp, .protectedCheck dp, .resume,
           .checkin "renaming file", .fsMutate "rename" dp]) ∧
    (∀ (env : Env) (u url dstRaw : String) (topt : Option Nat) (w : World)
       (urlp : ParsedUrl) (sp dp : String) (d1 d2 : Drive),
       parseDriveUrl url = some urlp →
       normalizeFilepath urlp.pathname = some sp →
       normalizeFilepath dstRaw = some dp →
       containsSub sp "://" = false →
       containsSub dp "://" = false →
       env.drives urlp.hostname = some d1 →
       env.drives urlp.origin = some d2 →
       isSenderBeaker u = false →
       isDriveHash u = false →
       strStartsWith u "hyper://" = false →
       ¬ urlDriveKey env u = some d2.key →
       grantLookup w.grants u ("modifyDrive:" ++ d2.key) = some true →
       ¬ dp = "/" ++ DRIVE_MANIFEST_FILENAME →
       strStartsWith (extractOrigin u) "beaker:" = false →
       env.metaSize d2.key + env.readSize d1.key sp ≤
         DAT_QUOTA_DEFAULT_BYTES_ALLOWED →
       ((copyOp env u url dstRaw topt w).2).events =
         w.events ++ [.driveLookup urlp.hostname urlp.version,
           .fsRead "readSize" sp, .timerStart,
           .checkin "searching for drive", .driveLookup urlp.origin none,
           .pause, .permQuery ("modifyDrive:" ++ d2.key),
           .protectedCheck dp,
           .quotaCheck d2.key (env.readSize d1.key sp), .resume,
           .checkin "copying", .fsMutate "copy" dp]) := by
  refine ⟨?_, ?_, ?_, ?_, ?_⟩
  · intro env u url dst topt w e he hee
    exact renameOp_noMut env u url dst topt w e he hee
  · intro env u url dst topt w e he hee
    exact copyOp_noMut env u url dst topt w e he hee
  · intro env u url dst topt w
    exact copyOp_noValidPathCheck env u url dst topt w
  · intro env u url dstRaw topt w urlp sp dp d1 d2 hp hn1 hn2 hnu1 hnu2
      hd1 hd2 h1 hh1 hh2 hns hgr hvp2 hm1 hm2
    unfold renameOp
    simp only [hp, hn1, hn2]
    unfold auditRecord timerM renameBody M.bind checkinM pauseM resumeM
      emitM lookupDrive
    simp only [hd1, hnu2, Bool.false_eq_true, if_false, hd2, hnu1]
    rw [assertWritePermission_grant_run env d2 u h1 hns _
      (by simp [World.push, hgr])]
    simp only [lookupWorld_id u hh1 hh2]
    unfold assertValidPath assertUnprotectedFilePath
    simp only [hvp2, if_true, h1, Bool.false_eq_true, if_false,
      if_neg hm1, if_neg hm2]
    unfold fsOp
    cases hfs : env.fsOutcome "rename" dp <;>
      simp [hfs, World.push, List.append_assoc]
  · intro env u url dstRaw topt w urlp sp dp d1 d2 hp hn1 hn2 hnu1 hnu2
      hd1 hd2 h1 hh1 hh2 hns hgr hm2 ho hq
    unfold copyOp
    simp only [hp, hn1, hn2]
    unfold M.bind lookupDrive readSizeOp
    simp only [hd1]
    unfold auditRecord timerM copyBody M.bind checkinM pauseM resumeM emitM
      lookupDrive
    simp only [hnu2, Bool.false_eq_true, if_false, hd2, hnu1]
    rw [assertWritePermission_grant_run env d2 u h1 hns _
      (by simp [World.push, hgr])]
    simp only [lookupWorld_id u hh1 hh2]
    unfold assertUnprotectedFilePath
    simp only [h1, Bool.false_eq_true, if_false, if_neg hm2]
    rw [assertQuotaPermission_run]
    simp only [ho, Bool.false_eq_true, if_false]
    rw [if_neg (Nat.not_lt.mpr hq)]
    unfold fsOp
    cases hfs : env.fsOutcome "copy" dp <;>
      simp [hfs, World.push, List.append_assoc]

/-- Witness for C8 amended: a denied rename leaves the trace free of
mutations, and the granted concrete rename and copy produce exactly the
resolve-check-mutate traces. -/
theorem C8_endpoints_resolved_and_checked_before_mutation_witness :
    (((renameOp envFix "https://app.example.com/"
        ("hyper://" ++ k64 ++ "/a.txt") "/b.txt" none w0).2).events.filter
        Event.isMutation = w0.events.filter Event.isMutation) ∧
    (((renameOp envFix "https://app.example.com/"
        ("hyper://" ++ k64 ++ "/a.txt") "/b.txt" none wGrant).2).events =
      wGrant.events ++ [.timerStart, .checkin "searching for drive",
        .driveLookup k64 none, .driveLookup ("hyper://" ++ k64) none,
        .pause, .permQuery ("modifyDrive:" ++ k64), .validPathCheck "/b.txt",
        .protectedCheck "/a.txt", .protectedCheck "/b.txt", .resume,
        .checkin "renaming file", .fsMutate "rename" "/b.txt"]) := by
  constructor
  · exact (C8_endpoints_resolved_and_checked_before_mutation).1 envFix
      "https://app.example.com/" ("hyper://" ++ k64 ++ "/a.txt") "/b.txt"
      none w0 .userDenied (by decide) rfl
  · exact (C8_endpoints_resolved_and_checked_before_mutation).2.2.2.1 envFix
      "https://app.example.com/" ("hyper://" ++ k64 ++ "/a.txt") "/b.txt"
      none wGrant
      { protocol := "hyper:", hostname := k64, version := none,
        pathname := "/a.txt", origin := "hyper://" ++ k64 }
      "/a.txt" "/b.txt" driveA driveA
      (by decide) (by decide) (by decide) (by decide) (by decide)
      (by decide) (by decide) (by decide) (by decide) (by decide)
      (by decide) (by decide) (by decide) (by decide) (by decide)

end Beaker
